import Mathlib

/-!
Shallow embedding of the arc-raiders-loadout drag-and-drop planner
(src/src/App.tsx and the useDragAndDrop hook) together with theorems
about its equip rules, mutation semantics, bill-of-materials resolver
and persistence round-trip.

Modelling conventions, chosen to mirror the TypeScript faithfully:
- optional fields become `Option`; JavaScript truthiness on an optional
  number (`item.stackSize`, `item.count`) is `truthyNat` (absent or 0 is
  falsy);
- `x.count || 1` is `countD`;
- JavaScript objects used as string-keyed records become association
  lists with first-match lookup (keys are unique in the source data);
- slot addresses use the source conventions: a section name plus a
  numeric index where -1 marks a scalar (non-array) slot, so indices are
  `Int`;
- display-only fields (icon, isImage, variants) carry no logic in any
  claim and are omitted from the `Item` record.
-/

namespace Loadout

/-- JavaScript truthiness of an optional number: absent and 0 are falsy. -/
def truthyNat : Option Nat → Bool
  | none => false
  | some 0 => false
  | some (_ + 1) => true

/-- An item record as produced by the catalog normalisation in App.tsx.
`modifications` makes the type a nested inductive: a mounted weapon
modification is itself an `Item`. -/
inductive Item where
  | mk
      (id : String)
      (name : String)
      (category : List String)
      (rarity : String)
      (recipe : Option (List (String × Nat)))
      (stackSize : Option Nat)
      (count : Option Nat)
      (craftQuantity : Option Nat)
      (shieldCompatibility : Option (List String))
      (slots : Option (List (String × Nat)))
      (isIntegrated : Bool)
      (supportedModifications : Option (List String))
      (modifications : Option (List (Option Item)))
      (recyclesInto : Option (List (String × Nat)))

def Item.id : Item → String
  | .mk x _ _ _ _ _ _ _ _ _ _ _ _ _ => x

def Item.name : Item → String
  | .mk _ x _ _ _ _ _ _ _ _ _ _ _ _ => x

def Item.category : Item → List String
  | .mk _ _ x _ _ _ _ _ _ _ _ _ _ _ => x

def Item.rarity : Item → String
  | .mk _ _ _ x _ _ _ _ _ _ _ _ _ _ => x

def Item.recipe : Item → Option (List (String × Nat))
  | .mk _ _ _ _ x _ _ _ _ _ _ _ _ _ => x

def Item.stackSize : Item → Option Nat
  | .mk _ _ _ _ _ x _ _ _ _ _ _ _ _ => x

def Item.count : Item → Option Nat
  | .mk _ _ _ _ _ _ x _ _ _ _ _ _ _ => x

def Item.craftQuantity : Item → Option Nat
  | .mk _ _ _ _ _ _ _ x _ _ _ _ _ _ => x

def Item.shieldCompatibility : Item → Option (List String)
  | .mk _ _ _ _ _ _ _ _ x _ _ _ _ _ => x

def Item.slots : Item → Option (List (String × Nat))
  | .mk _ _ _ _ _ _ _ _ _ x _ _ _ _ => x

def Item.isIntegrated : Item → Bool
  | .mk _ _ _ _ _ _ _ _ _ _ x _ _ _ => x

def Item.supportedModifications : Item → Option (List String)
  | .mk _ _ _ _ _ _ _ _ _ _ _ x _ _ => x

def Item.modifications : Item → Option (List (Option Item))
  | .mk _ _ _ _ _ _ _ _ _ _ _ _ x _ => x

def Item.recyclesInto : Item → Option (List (String × Nat))
  | .mk _ _ _ _ _ _ _ _ _ _ _ _ _ x => x

/-- The spread update found all over the source: a copy with a new count. -/
def Item.withCount : Item → Option Nat → Item
  | .mk a b c d e f _ g h i j k l m, n => .mk a b c d e f n g h i j k l m

/-- The spread update replacing the modifications array. -/
def Item.withMods : Item → Option (List (Option Item)) → Item
  | .mk a b c d e f g h i j k l _ m, n => .mk a b c d e f g h i j k l n m

/-- The spread that injects a fixed integrated item:
a copy with count 1 and isIntegrated true. -/
def Item.withCount1Integrated : Item → Item
  | .mk a b c d e f _ g h i _ k l m => .mk a b c d e f (some 1) g h i true k l m

/-- The ubiquitous `item.count || 1` idiom. -/
def countD (i : Item) : Nat :=
  match i.count with
  | none => 1
  | some 0 => 1
  | some (n + 1) => n + 1

/-- The `item.craftQuantity || 1` idiom. -/
def craftD (i : Item) : Nat :=
  match i.craftQuantity with
  | none => 1
  | some 0 => 1
  | some (n + 1) => n + 1

/-- First-match lookup in a string-keyed record. -/
def recGet (l : List (String × Nat)) (k : String) : Option Nat :=
  (l.find? (fun p => p.1 == k)).map (fun p => p.2)

/-- The sections of the loadout plus the inventory pool, as the string
keys used throughout the source. -/
inductive Sec where
  | augment | shield | weapons | backpack | quickUse | extra | safePocket | inventory
  deriving DecidableEq, Repr

/-- The loadout state record from App.tsx. -/
structure LoadoutState where
  title : String
  augment : Option Item
  shield : Option Item
  weapons : List (Option Item)
  backpack : List (Option Item)
  quickUse : List (Option Item)
  extra : List (Option Item)
  safePocket : List (Option Item)

/-- Array read `arr[idx]` with an `Int` index; a negative or
out-of-range index yields `undefined`, collapsed with null to `none`. -/
def getIdx (xs : List (Option Item)) (i : Int) : Option Item :=
  if 0 ≤ i then (xs.getD i.toNat none) else none

/-- Array write `arr[idx] = v` at an in-range index (out of range is
never reached by the handlers on well-indexed slots). -/
def setIdx (xs : List (Option Item)) (i : Int) (v : Option Item) : List (Option Item) :=
  if 0 ≤ i then xs.set i.toNat v else xs

/-- String-array read with an `Int` index. -/
def strGet (xs : List String) (i : Int) : Option String :=
  if 0 ≤ i then xs.get? i.toNat else none

/-- The `getItem` helper of handleItemEquip: scalar sections ignore the
index, array sections are indexed (`idx !== -1 && Array.isArray`). -/
def LoadoutState.getCell (l : LoadoutState) (sec : Sec) (idx : Int) : Option Item :=
  match sec with
  | .augment => l.augment
  | .shield => l.shield
  | .weapons => if idx = -1 then none else getIdx l.weapons idx
  | .backpack => if idx = -1 then none else getIdx l.backpack idx
  | .quickUse => if idx = -1 then none else getIdx l.quickUse idx
  | .extra => if idx = -1 then none else getIdx l.extra idx
  | .safePocket => if idx = -1 then none else getIdx l.safePocket idx
  | .inventory => none

/-- The `setItem` helper of handleItemEquip (copy-on-write collapses to
a functional update). -/
def LoadoutState.setCell (l : LoadoutState) (sec : Sec) (idx : Int) (v : Option Item) :
    LoadoutState :=
  match sec with
  | .augment => { l with augment := v }
  | .shield => { l with shield := v }
  | .weapons => if idx = -1 then l else { l with weapons := setIdx l.weapons idx v }
  | .backpack => if idx = -1 then l else { l with backpack := setIdx l.backpack idx v }
  | .quickUse => if idx = -1 then l else { l with quickUse := setIdx l.quickUse idx v }
  | .extra => if idx = -1 then l else { l with extra := setIdx l.extra idx v }
  | .safePocket => if idx = -1 then l else { l with safePocket := setIdx l.safePocket idx v }
  | .inventory => l

/-- Direct array access `(newLoadout[sec] as (Item | null)[])[idx]` used
by the modification branches: scalar sections index into a non-array and
give `undefined`. -/
def LoadoutState.arrGet (l : LoadoutState) (sec : Sec) (idx : Int) : Option Item :=
  match sec with
  | .weapons => getIdx l.weapons idx
  | .backpack => getIdx l.backpack idx
  | .quickUse => getIdx l.quickUse idx
  | .extra => getIdx l.extra idx
  | .safePocket => getIdx l.safePocket idx
  | _ => none

/-- Direct array write used by the modification branches. -/
def LoadoutState.arrSet (l : LoadoutState) (sec : Sec) (idx : Int) (v : Option Item) :
    LoadoutState :=
  match sec with
  | .weapons => { l with weapons := setIdx l.weapons idx v }
  | .backpack => { l with backpack := setIdx l.backpack idx v }
  | .quickUse => { l with quickUse := setIdx l.quickUse idx v }
  | .extra => { l with extra := setIdx l.extra idx v }
  | .safePocket => { l with safePocket := setIdx l.safePocket idx v }
  | _ => l

/-! ## Equip rules engine -/

/-- The shield tier derived from the identifier (getShieldType). -/
def getShieldType (item : Item) : Option String :=
  if item.id = "light_shield" then some "light"
  else if item.id = "medium_shield" then some "medium"
  else if item.id = "heavy_shield" then some "heavy"
  else none

/-- isShieldCompatible from App.tsx. -/
def isShieldCompatible (shield : Option Item) (augment : Option Item) : Bool :=
  match shield with
  | none => true
  | some s =>
    match getShieldType s with
    | none => true
    | some t =>
      if t = "light" then true
      else
        match augment with
        | none => false
        | some a =>
          match a.shieldCompatibility with
          | none => false
          | some sc => sc.contains t

/-- The fixed EXTRA_SLOT_TYPES list. -/
def EXTRA_SLOT_TYPES : List String :=
  ["trinket", "grenade", "utility", "integrated_binoculars",
   "integrated_shield_recharger", "healing"]

/-- The `augment.slots[key] || 0` read. -/
def slotsGet0 (slots : Option (List (String × Nat))) (k : String) : Nat :=
  match slots with
  | none => 0
  | some l => (recGet l k).getD 0

/-- extraSlotConfig.slotTypes: one entry per granted extra slot, in
EXTRA_SLOT_TYPES order, repeated per declared count. -/
def extraSlotTypes (augment : Option Item) : List String :=
  match augment with
  | none => []
  | some a =>
    match a.slots with
    | none => []
    | some _ =>
      EXTRA_SLOT_TYPES.foldl
        (fun acc key => acc ++ List.replicate (slotsGet0 a.slots key) key) []

/-- extraSlotConfig.count: the summed granted extra-slot count. -/
def extraCount (augment : Option Item) : Nat :=
  match augment with
  | none => 0
  | some a =>
    match a.slots with
    | none => 0
    | some _ => EXTRA_SLOT_TYPES.foldl (fun acc key => acc + slotsGet0 a.slots key) 0

/-- calculateExtraSlotsCount from App.tsx (used by deserialisation). -/
def calculateExtraSlotsCount (augment : Option Item) : Nat :=
  match augment with
  | none => 0
  | some a =>
    match a.slots with
    | none => 0
    | some _ => EXTRA_SLOT_TYPES.foldl (fun acc key => acc + slotsGet0 a.slots key) 0

/-- The `augment?.slots?.key ?? default` read used for pooled-capacity
derivation (nullish coalescing: a present 0 stays 0). -/
def slotsD (augment : Option Item) (k : String) (d : Nat) : Nat :=
  match augment with
  | none => d
  | some a =>
    match a.slots with
    | none => d
    | some s => (recGet s k).getD d

/-- canEquip from App.tsx: the decision table, in source order.  The
loadout argument supplies `loadout.weapons` (modification targets),
`loadout.augment` (shield compatibility) and the derived
extraSlotConfig.slotTypes. -/
def canEquip (l : LoadoutState) (item : Item) (slotType : Sec) (slotIndex : Int)
    (modIndex : Int) : Bool :=
  let categories := item.category
  if slotType = .weapons ∧ modIndex ≠ -1 then
    match getIdx l.weapons slotIndex with
    | none => false
    | some weapon =>
      match weapon.supportedModifications with
      | none => false
      | some sm =>
        match strGet sm modIndex with
        | none => false
        | some requiredCategory =>
          if requiredCategory = "" then false
          else categories.contains requiredCategory
  else if categories.contains "Augment" ∧ slotType = .augment then true
  else if categories.contains "Shield" ∧ slotType = .shield then
    isShieldCompatible (some item) l.augment
  else if categories.contains "Shield" ∧ (slotType = .backpack ∨ slotType = .safePocket) then
    true
  else if categories.contains "Weapon" ∧ (slotType = .weapons ∨ slotType = .backpack) then
    true
  else if slotType = .extra then
    if slotIndex = -1 then false
    else
      match strGet (extraSlotTypes l.augment) slotIndex with
      | none => false
      | some t =>
        if t = "" then false
        else if t.startsWith "integrated_" then false
        else categories.any (fun c => c.toLower = t.toLower)
  else if categories.contains "Ammunition" ∧ (slotType = .backpack ∨ slotType = .safePocket) then
    true
  else if categories.contains "Modification" ∧ (slotType = .backpack ∨ slotType = .safePocket) then
    true
  else if categories.contains "Quick Use" ∧
      (slotType = .backpack ∨ slotType = .quickUse ∨ slotType = .safePocket) then
    true
  else if categories.contains "Key" ∧ (slotType = .backpack ∨ slotType = .safePocket) then
    true
  else false

/-! ## Drag-start handlers (useDragAndDrop hook) -/

/-- handleDragStart: returns the dragged stack and the isSplit flag of
the drag-session source descriptor. -/
def handleDragStart (item : Item) (sourceSection : Sec) (altKey : Bool) : Item × Bool :=
  if sourceSection = .inventory ∧ truthyNat item.stackSize then
    (item.withCount item.stackSize, false)
  else if sourceSection ≠ .inventory ∧ altKey ∧ truthyNat item.stackSize ∧ 1 < countD item then
    (item.withCount (some (countD item / 2)), true)
  else if sourceSection ≠ .inventory ∧ ¬ truthyNat item.count then
    (item.withCount (some 1), false)
  else (item, false)

/-- handleTouchStart: the touch path computes the dragged stack without
any split branch; isSplit is the literal false. -/
def handleTouchStart (item : Item) (sourceSection : Sec) : Item × Bool :=
  if sourceSection = .inventory ∧ truthyNat item.stackSize then
    (item.withCount item.stackSize, false)
  else if sourceSection ≠ .inventory ∧ ¬ truthyNat item.count then
    (item.withCount (some 1), false)
  else (item, false)

/-- renderSlot: while a split drag is unresolved the source slot is
displayed with `(item.count || 1) - (draggedItem.count || 1)`. -/
def splitRemainderDisplay (item dragged : Item) : Nat :=
  countD item - countD dragged

/-! ## The drop-commit mutation (handleItemEquip) -/

/-- Array assignment `mods[i] = v`: JavaScript extends a short array
with holes (read back as `undefined`, collapsed to `none`). -/
def setExtend (xs : List (Option Item)) (i : Nat) (v : Option Item) : List (Option Item) :=
  if i < xs.length then xs.set i v
  else (xs ++ List.replicate (i - xs.length) none) ++ [v]

/-- `setExtend` with the Int index convention of the handlers. -/
def setExtendI (xs : List (Option Item)) (i : Int) (v : Option Item) : List (Option Item) :=
  if 0 ≤ i then setExtend xs i.toNat v else xs

/-- The shield-compatibility side effect that closes every
augment-touching mutation: evict the shield if it is no longer
compatible with the current augment. -/
def applyShieldEvict (s : LoadoutState) : LoadoutState :=
  if s.shield.isSome ∧ isShieldCompatible s.shield s.augment = false then
    { s with shield := none }
  else s

/-- The conditional wrapper as it appears at the end of the non-mod
commit path: the side effect runs only when the augment slot is the
source or the target. -/
def evictIf (sourceSection targetSection : Sec) (s : LoadoutState) : LoadoutState :=
  if targetSection = .augment ∨ sourceSection = .augment then applyShieldEvict s else s

/-- The source-slot decrement shared by the commit paths: take one unit
(or `amountToMove` units) off the source stack, deleting it at zero. -/
def decrementSource (s : LoadoutState) (sec : Sec) (idx : Int) (amount : Nat) :
    LoadoutState :=
  let sourceItem := s.getCell sec idx
  let currentSourceCount := match sourceItem with | none => 1 | some si => countD si
  let remaining := currentSourceCount - amount
  s.setCell sec idx
    (if 0 < remaining then (sourceItem.map (fun si => si.withCount (some remaining)))
     else none)

/-- The source-slot update of the non-modification commit path of
handleItemEquip: clear a modification source, swap the displaced target
occupant into a plain source slot, or decrement the source stack. -/
def sourceUpdate (s1 : LoadoutState) (targetItem : Option Item) (item : Item)
    (sourceSection : Sec) (sourceIndex sourceModIndex : Option Int) (isSplit : Bool)
    (amountToMove : Nat) : LoadoutState :=
  if sourceSection ≠ .inventory ∧ sourceIndex.isSome then
    let si := sourceIndex.getD 0
    if sourceModIndex.isSome ∧ sourceModIndex ≠ some (-1) then
      let smi := sourceModIndex.getD 0
      match s1.arrGet sourceSection si with
      | none => s1
      | some sourceWeapon =>
        match sourceWeapon.modifications with
        | none => s1
        | some swMods =>
          s1.arrSet sourceSection si
            (some (sourceWeapon.withMods (some (setExtendI swMods smi none))))
    else if targetItem.isSome ∧ (targetItem.map Item.id) ≠ some item.id ∧ ¬ isSplit then
      s1.setCell sourceSection si targetItem
    else decrementSource s1 sourceSection si amountToMove
  else s1

/-- The non-modification commit path of handleItemEquip: merge into a
same-id stack with headroom, reject an occupied-target split, otherwise
place the dragged stack (swapping out a different occupant), then run
the augment-shield side effect. -/
def commitNonMod (l : LoadoutState) (item : Item) (sourceSection : Sec)
    (sourceIndex sourceModIndex : Option Int) (isSplit : Bool)
    (targetSection : Sec) (targetIndex : Int) : LoadoutState :=
  let targetItem := l.getCell targetSection targetIndex
  let merging : Bool := match targetItem with
    | some ti => ti.id == item.id && truthyNat ti.stackSize
    | none => false
  let amountToMove :=
    if merging then
      match targetItem with
      | some ti => min (countD item) (ti.stackSize.getD 0 - countD ti)
      | none => countD item
    else countD item
  if !merging && targetItem.isSome && isSplit then l
  else if amountToMove = 0 then l
  else
    let newTargetItem :=
      if merging then
        match targetItem with
        | some ti => ti.withCount (some (countD ti + amountToMove))
        | none => item.withCount (some amountToMove)
      else item.withCount (some amountToMove)
    let s1 := l.setCell targetSection targetIndex (some newTargetItem)
    let s2 := sourceUpdate s1 targetItem item sourceSection sourceIndex sourceModIndex
      isSplit amountToMove
    evictIf sourceSection targetSection s2

/-- The modification-target commit path of handleItemEquip: place the
item (count 1) into the weapon modification array at the target index,
then clear a modification source or decrement a plain source by one.
No augment-shield side effect runs on this path. -/
def commitMod (l : LoadoutState) (item : Item) (sourceSection : Sec)
    (sourceIndex sourceModIndex : Option Int)
    (targetSection : Sec) (targetIndex targetModIndex : Int) : LoadoutState :=
  match l.arrGet targetSection targetIndex with
  | none => l
  | some weapon =>
    let placedMods := setExtendI (weapon.modifications.getD []) targetModIndex
      (some (item.withCount (some 1)))
    let s1 := l.arrSet targetSection targetIndex (some (weapon.withMods (some placedMods)))
    if sourceSection ≠ .inventory ∧ sourceIndex.isSome then
      let si := sourceIndex.getD 0
      if sourceModIndex.isSome ∧ sourceModIndex ≠ some (-1) then
        let smi := sourceModIndex.getD 0
        match s1.arrGet sourceSection si with
        | none => s1
        | some sourceWeapon =>
          match sourceWeapon.modifications with
          | none => s1
          | some swMods =>
            if sourceSection = targetSection ∧ si = targetIndex then
              s1.arrSet targetSection targetIndex
                (some (weapon.withMods (some (setExtendI placedMods smi none))))
            else
              s1.arrSet sourceSection si
                (some (sourceWeapon.withMods (some (setExtendI swMods smi none))))
      else decrementSource s1 sourceSection si 1
    else s1

/-- handleItemEquip from App.tsx: guards (identity, fixed integrated
extra slot, canEquip), then the modification-target branch or the
merge / split-reject / swap logic, then the augment-shield side effect.
State reads and writes are threaded in source order, so aliased
re-reads behave as in the original. -/
def handleItemEquip (l : LoadoutState) (item : Item) (sourceSection : Sec)
    (sourceIndex : Option Int) (sourceModIndex : Option Int) (isSplit : Bool)
    (targetSection : Sec) (targetIndex : Int) (targetModIndex : Int) : LoadoutState :=
  if sourceSection = targetSection ∧ sourceIndex = some targetIndex ∧
      sourceModIndex = some targetModIndex then l
  else if targetSection = .extra ∧
      (strGet (extraSlotTypes l.augment) targetIndex = some "integrated_binoculars" ∨
       strGet (extraSlotTypes l.augment) targetIndex = some "integrated_shield_recharger") then
    l
  else if canEquip l item targetSection targetIndex targetModIndex = false then l
  else if targetModIndex ≠ -1 then
    commitMod l item sourceSection sourceIndex sourceModIndex targetSection targetIndex
      targetModIndex
  else
    commitNonMod l item sourceSection sourceIndex sourceModIndex isSplit targetSection
      targetIndex

/-- The unequip commit shared by handleInventoryDrop,
handleTouchInventoryDrop and handleAppDrop-style removal: clear the
source slot (or source mod slot), then run the augment-shield side
effect when the augment slot was the source. -/
def unequipToInventory (l : LoadoutState) (sourceSection : Sec) (sourceIndex : Option Int)
    (sourceModIndex : Option Int) : LoadoutState :=
  if sourceSection = .inventory then l
  else
    match sourceIndex with
    | none => l
    | some si =>
      let s1 :=
        if sourceModIndex.isSome ∧ sourceModIndex ≠ some (-1) then
          let smi := sourceModIndex.getD 0
          match l.arrGet sourceSection si with
          | none => l
          | some sourceWeapon =>
            match sourceWeapon.modifications with
            | none => l
            | some swMods =>
              l.arrSet sourceSection si
                (some (sourceWeapon.withMods (some (setExtendI swMods smi none))))
        else l.setCell sourceSection si none
      if sourceSection = .augment then applyShieldEvict s1 else s1

/-! ## Concrete fixtures used by witnesses and counterexamples -/

/-- A stackable ammunition item with the given count. -/
def tAmmo (c : Nat) : Item :=
  .mk "ammo_light" "Light Ammo" ["Ammunition"] "Common" none (some 100) (some c) none
    none none false none none none

/-- A stackable quick-use item. -/
def tBandage : Item :=
  .mk "bandage" "Bandage" ["Quick Use"] "Common" none (some 5) (some 2) none
    none none false none none none

/-- A weapon modification item accepted by the Sight mod slot. -/
def tScope : Item :=
  .mk "scope" "Scope" ["Modification", "Sight"] "Rare" none none (some 1) none
    none none false none none none

/-- A weapon with one declared Sight modification slot, carrying a
mounted scope. -/
def tGun : Item :=
  .mk "gun" "Gun" ["Weapon", "Gun"] "Rare" none none (some 1) none
    none none false (some ["Sight"]) (some [some tScope]) none

/-- The medium shield (middle tier, requires augment compatibility). -/
def tMedShield : Item :=
  .mk "medium_shield" "Medium Shield" ["Shield"] "Rare" none none (some 1) none
    none none false none none none

/-- An augment that also carries a Sight category, declaring medium
shield compatibility. -/
def tAugSight : Item :=
  .mk "aug_sight" "Odd Augment" ["Augment", "Sight"] "Epic" none none (some 1) none
    (some ["medium"]) none false none none none

/-- A plain augment with no shield compatibility list. -/
def tAug2 : Item :=
  .mk "aug_plain" "Plain Augment" ["Augment"] "Common" none none (some 1) none
    none none false none none none

/-- An empty default loadout (DEFAULT_SLOTS capacities). -/
def emptyL : LoadoutState :=
  { title := "LOADOUT", augment := none, shield := none, weapons := [none, none]
    backpack := List.replicate 16 none, quickUse := List.replicate 3 none
    extra := [], safePocket := [] }

/-- Fixture for the swap scenario: a bandage at backpack 0, ammo at
backpack 1. -/
def swapL : LoadoutState :=
  { emptyL with backpack := [some tBandage, some (tAmmo 60)] ++ List.replicate 14 none }

/-- Fixture for the merge scenario: two ammo stacks. -/
def mergeL : LoadoutState :=
  { emptyL with backpack := [some (tAmmo 50), some (tAmmo 60)] ++ List.replicate 14 none }

/-- Merge fixture with a full target stack (no headroom). -/
def mergeL2 : LoadoutState :=
  { emptyL with backpack := [some (tAmmo 100), some (tAmmo 60)] ++ List.replicate 14 none }

/-- Fixture with a scope mounted on the weapon and a bandage at
backpack 0. -/
def modSrcL : LoadoutState :=
  { emptyL with
    weapons := [some tGun, none]
    backpack := [some tBandage] ++ List.replicate 15 none }

/-- Fixture with the odd augment equipped, a medium shield mounted
(legal only through that augment), and an empty Sight slot on the
weapon. -/
def c2L : LoadoutState :=
  { emptyL with
    augment := some tAugSight
    shield := some tMedShield
    weapons := [some (tGun.withMods (some [none])), none] }

/-- Read of a weapon modification sub-slot. -/
def LoadoutState.getModCell (l : LoadoutState) (sec : Sec) (idx mi : Int) : Option Item :=
  match l.arrGet sec idx with
  | none => none
  | some w =>
    if 0 ≤ mi then (w.modifications.getD []).getD mi.toNat none else none

/-- The sections stored as arrays (`Array.isArray(newLoadout[sec])`). -/
def isArraySec : Sec → Bool
  | .weapons => true
  | .backpack => true
  | .quickUse => true
  | .extra => true
  | .safePocket => true
  | _ => false

/-! ## Augment-driven pooled-capacity resizing -/

/-- The gap-filling loop of resizeSection: walk the kept prefix and
replace each null with the next overflow item, stopping when overflow
runs out. -/
def fillGaps : List (Option Item) → List Item → List (Option Item)
  | [], _ => []
  | none :: rest, [] => none :: rest
  | none :: rest, o :: ov => some o :: fillGaps rest ov
  | some x :: rest, ov => some x :: fillGaps rest ov

/-- resizeSection from the augment-change effect in App.tsx. -/
def resizeSection (currentItems : List (Option Item)) (newSize : Nat) :
    List (Option Item) :=
  if newSize = currentItems.length then currentItems
  else if currentItems.length < newSize then
    currentItems ++ List.replicate (newSize - currentItems.length) none
  else
    let keptItems := currentItems.take newSize
    let overflowItems := (currentItems.drop newSize).filterMap id
    if overflowItems.isEmpty then keptItems
    else fillGaps keptItems overflowItems

/-- Indices of the null entries of a slot array, in increasing order
(the gaps that shrink-relocation can fill). -/
def gapPositions : List (Option Item) → List Nat
  | [] => []
  | none :: rest => 0 :: (gapPositions rest).map (fun i => i + 1)
  | some _ :: rest => (gapPositions rest).map (fun i => i + 1)

/-- The extra-pool revalidation map of the augment-change effect:
inject fixed integrated items, eject stale integrated items and items
whose category no longer matches the slot type. -/
def revalidateExtra (aid : String → Option Item) (slotTypes : List String)
    (items : List (Option Item)) : List (Option Item) :=
  items.mapIdx (fun idx item =>
    let type := slotTypes.getD idx ""
    if type = "integrated_binoculars" ∧ (aid "binoculars").isSome then
      (aid "binoculars").map Item.withCount1Integrated
    else if type = "integrated_shield_recharger" ∧
        (aid "surge_shield_recharger").isSome then
      (aid "surge_shield_recharger").map Item.withCount1Integrated
    else
      match item with
      | none => none
      | some it =>
        if it.isIntegrated then none
        else if ¬ (it.category.any (fun c => c.toLower = type.toLower)) then none
        else some it)

/-- The setLoadout body of the augment-change effect: resize every
pooled array to the capacity derived from the equipped augment and
revalidate the extra pool.  (The reference-equality early return of the
source only avoids an identical state and is value-transparent.) -/
def augmentResize (aid : String → Option Item) (l : LoadoutState) : LoadoutState :=
  let newBackpack := resizeSection l.backpack (slotsD l.augment "backpack" 16)
  let newQuickUse := resizeSection l.quickUse (slotsD l.augment "quick_use" 3)
  let newSafePocket := resizeSection l.safePocket (slotsD l.augment "safe_pocket" 0)
  let st := extraSlotTypes l.augment
  let ex0 := resizeSection l.extra (extraCount l.augment)
  let newExtra := if 0 < st.length then revalidateExtra aid st ex0 else ex0
  { l with backpack := newBackpack, quickUse := newQuickUse,
           safePocket := newSafePocket, extra := newExtra }

/-! ## Bill-of-materials resolver (getLootTable) -/

/-- `Math.ceil((item.count || 1) / (item.craftQuantity || 1))`. -/
def numCrafts (i : Item) : Nat :=
  (countD i + craftD i - 1) / craftD i

/-- One pass of `Object.entries(item.recipe).forEach`: add
`count * numCrafts` per material into the running totals. -/
def addEntries (entries : List (String × Nat)) (k : Nat) (totals : String → Nat) :
    String → Nat :=
  entries.foldl
    (fun t p => fun matId => if matId = p.1 then t matId + p.2 * k else t matId) totals

mutual
/-- addItemRecipe from getLootTable: a stack without a recipe
contributes nothing and its modifications are not visited (the early
return in the source); a stack with a recipe contributes
`quantity * numCrafts` per material and then recurses into its mounted
modifications. -/
def addItemRecipe : Item → (String → Nat) → (String → Nat)
  | .mk a b c d recipe f g h i j k l mods m, totals =>
    match recipe with
    | none => totals
    | some entries =>
      let t1 := addEntries entries (numCrafts (.mk a b c d recipe f g h i j k l mods m)) totals
      match mods with
      | none => t1
      | some ms => addModList ms t1

/-- The modification walk of addItemRecipe. -/
def addModList : List (Option Item) → (String → Nat) → (String → Nat)
  | [], totals => totals
  | none :: rest, totals => addModList rest totals
  | some m :: rest, totals => addModList rest (addItemRecipe m totals)
end

/-- Null guard around addItemRecipe. -/
def addOptItem (totals : String → Nat) : Option Item → (String → Nat)
  | none => totals
  | some i => addItemRecipe i totals

/-- The per-material totals computed by getLootTable, walking the
sections in source order. -/
def getLootTotals (l : LoadoutState) : String → Nat :=
  let t0 : String → Nat := fun _ => 0
  let t1 := addOptItem t0 l.augment
  let t2 := addOptItem t1 l.shield
  let t3 := l.weapons.foldl addOptItem t2
  let t4 := l.backpack.foldl addOptItem t3
  let t5 := l.quickUse.foldl addOptItem t4
  let t6 := l.extra.foldl addOptItem t5
  l.safePocket.foldl addOptItem t6

/-- Total quantity of one material in a recipe. -/
def recipeAmt (i : Item) (mat : String) : Nat :=
  match i.recipe with
  | none => 0
  | some entries => entries.foldl (fun a p => if p.1 = mat then a + p.2 else a) 0

mutual
/-- Modelled from the spec: the claimed formula walks every occupied
stack and recurses into every mounted modification unconditionally.
`specStacks` collects that full stack list. -/
def specStacks : Item → List Item
  | .mk a b c d e f g h i j k l mods m =>
    Item.mk a b c d e f g h i j k l mods m ::
      (match mods with
       | none => []
       | some ms => specModStacks ms)

def specModStacks : List (Option Item) → List Item
  | [] => []
  | none :: rest => specModStacks rest
  | some m :: rest => specStacks m ++ specModStacks rest
end

mutual
/-- The stacks the source actually visits: recursion descends only
through stacks that themselves carry a recipe, and recipe-less stacks
are dropped together with their modifications. -/
def lootStacks : Item → List Item
  | .mk a b c d recipe f g h i j k l mods m =>
    match recipe with
    | none => []
    | some _ =>
      Item.mk a b c d recipe f g h i j k l mods m ::
        (match mods with
         | none => []
         | some ms => lootModStacks ms)

def lootModStacks : List (Option Item) → List Item
  | [] => []
  | none :: rest => lootModStacks rest
  | some m :: rest => lootStacks m ++ lootModStacks rest
end

/-- All occupied cells of a loadout in the walk order of getLootTable. -/
def allCells (l : LoadoutState) : List (Option Item) :=
  l.augment :: l.shield :: (l.weapons ++ l.backpack ++ l.quickUse ++ l.extra ++ l.safePocket)

/-- The (item, per-material) contribution of one stack instance. -/
def stackContrib (i : Item) (mat : String) : Nat :=
  recipeAmt i mat * numCrafts i

/-- Sum of the claimed formula over a list of stacks. -/
def sumContrib (sl : List Item) (mat : String) : Nat :=
  (sl.map (fun i => stackContrib i mat)).sum

/-- Null guard for specStacks. -/
def optSpecStacks : Option Item → List Item
  | none => []
  | some i => specStacks i

/-- Null guard for lootStacks. -/
def optLootStacks : Option Item → List Item
  | none => []
  | some i => lootStacks i

/-- Modelled from the spec: the claimed per-material requirement. -/
def specRequired (l : LoadoutState) (mat : String) : Nat :=
  sumContrib ((allCells l).flatMap optSpecStacks) mat

/-- The requirement the source actually computes, as a sum. -/
def lootRequired (l : LoadoutState) (mat : String) : Nat :=
  sumContrib ((allCells l).flatMap optLootStacks) mat

/-! ## Recycle-candidate ranking (getRecycleList) -/

/-- Record lookup in the item catalog (allItemData), modelled as an
association list so that Object.values is available. -/
def aidGet (aid : List (String × Item)) (k : String) : Option Item :=
  (aid.find? (fun p => p.1 == k)).map (fun p => p.2)

/-- The switch on material rarity: Common (and anything unrecognised)
weighs 1, then each tier doubles. -/
def rarityWeight (r : String) : Nat :=
  if r = "Uncommon" then 2
  else if r = "Rare" then 4
  else if r = "Epic" then 8
  else if r = "Legendary" then 16
  else 1

/-- `allItemData[matId]?.rarity || "Common"`. -/
def matRarity (aid : List (String × Item)) (matId : String) : String :=
  match aidGet aid matId with
  | none => "Common"
  | some m => if m.rarity = "" then "Common" else m.rarity

/-- The `requiredMap` built by `lootTable.forEach(set)`: later writes
win, missing keys are absent. -/
def buildReqMap (lt : List (String × Nat)) : String → Option Nat :=
  lt.foldl (fun m p => fun k => if k = p.1 then some p.2 else m k) (fun _ => none)

/-- The score of one recyclable candidate: clamp each yield at the
outstanding requirement and weigh by the rarity of the yielded
material; absent requirements contribute nothing. -/
def recycleScore (aid : List (String × Item)) (req : String → Option Nat) (i : Item) :
    Nat :=
  match i.recyclesInto with
  | none => 0
  | some entries =>
    entries.foldl
      (fun score p =>
        match req p.1 with
        | none => score
        | some reqCount => score + min p.2 reqCount * rarityWeight (matRarity aid p.1))
      0

/-- `Object.values(allItemData)` filtered to recyclable items with a
recycle-yield map. -/
def recycleCandidates (aid : List (String × Item)) : List Item :=
  (aid.map (fun p => p.2)).filter
    (fun i => i.category.contains "Recyclable" && i.recyclesInto.isSome)

/-- The descending-score order of the sort comparator
`(a, b) => b.score - a.score`. -/
def scoreGE (a b : Item × Nat) : Prop := b.2 ≤ a.2

instance : DecidableRel scoreGE := fun a b => Nat.decLe b.2 a.2

instance : IsTotal (Item × Nat) scoreGE := ⟨fun a b => Nat.le_total b.2 a.2⟩

instance : IsTrans (Item × Nat) scoreGE := ⟨fun _ _ _ h1 h2 => Nat.le_trans h2 h1⟩

/-- The scored, filtered, sorted, truncated candidate list (the list
getRecycleList maps back to items); the stable JavaScript sort is
embedded as a stable insertion sort. -/
def recycleScored (aid : List (String × Item)) (lt : List (String × Nat)) :
    List (Item × Nat) :=
  let req := buildReqMap lt
  (List.insertionSort scoreGE
    (((recycleCandidates aid).map (fun i => (i, recycleScore aid req i))).filter
      (fun x => 0 < x.2))).take 10

/-- getRecycleList from App.tsx. -/
def getRecycleList (aid : List (String × Item)) (lt : List (String × Nat)) : List Item :=
  (recycleScored aid lt).map (fun x => x.1)

/-! ## Persistence (serializeLoadout / deserializeLoadout) -/

/-- A serialized mounted modification: `{ id, count: 1 }`. -/
structure SerializedMod where
  id : String
  count : Nat
  deriving DecidableEq

/-- A serialized occupied slot: `{ id, count, modifications }`;
an absent JSON key is `none`. -/
structure SerializedItem where
  id : String
  count : Option Nat
  modifications : Option (List (Option SerializedMod))
  deriving DecidableEq

/-- The serialized loadout; absent keys collapse with empty arrays and
null scalars (deserialisation treats them identically). -/
structure SerializedLoadout where
  title : Option String
  augment : Option SerializedItem
  shield : Option SerializedItem
  weapons : List (Option SerializedItem)
  backpack : List (Option SerializedItem)
  quickUse : List (Option SerializedItem)
  extra : List (Option SerializedItem)
  safePocket : List (Option SerializedItem)

/-- The per-cell map of serializeLoadout. -/
def sMapItem : Option Item → Option SerializedItem
  | none => none
  | some i =>
    some
      { id := i.id
        count := i.count
        modifications :=
          match i.modifications with
          | none => none
          | some ms =>
            some (ms.map (fun m =>
              match m with
              | none => none
              | some mm => some { id := mm.id, count := 1 })) }

/-- The trailing-null trim of serializeLoadout. -/
def trimS (arr : List (Option SerializedItem)) : List (Option SerializedItem) :=
  (arr.reverse.dropWhile (fun x => x.isNone)).reverse

/-- serializeLoadout from App.tsx. -/
def serializeLoadout (l : LoadoutState) : SerializedLoadout :=
  { title := if l.title ≠ "" ∧ l.title ≠ "LOADOUT" then some l.title else none
    augment := sMapItem l.augment
    shield := sMapItem l.shield
    weapons := trimS (l.weapons.map sMapItem)
    backpack := trimS (l.backpack.map sMapItem)
    quickUse := trimS (l.quickUse.map sMapItem)
    extra := trimS (l.extra.map sMapItem)
    safePocket := trimS (l.safePocket.map sMapItem) }

/-- `sItem.count || 1`. -/
def natD1 : Option Nat → Nat
  | none => 1
  | some 0 => 1
  | some (n + 1) => n + 1

/-- The per-cell map of deserializeLoadout: resolve the id against the
catalog (unknown ids become empty slots), restore the count, rebuild
the modifications array from the catalog and pad it to the length the
base item declares. -/
def dMapItem (aid : String → Option Item) : Option SerializedItem → Option Item
  | none => none
  | some s =>
    match aid s.id with
    | none => none
    | some base =>
      let item := base.withCount (some (natD1 s.count))
      match s.modifications, base.supportedModifications with
      | some sm, some bsm =>
        let mods := sm.map (fun m =>
          match m with
          | none => none
          | some mr =>
            match aid mr.id with
            | none => none
            | some mbase => some (mbase.withCount (some 1)))
        some (item.withMods (some (mods ++ List.replicate (bsm.length - mods.length) none)))
      | none, some bsm => some (item.withMods (some (List.replicate bsm.length none)))
      | _, none => some item

/-- Right-pad a restored slot array with nulls up to the derived size. -/
def padI (arr : List (Option Item)) (size : Nat) : List (Option Item) :=
  arr ++ List.replicate (size - arr.length) none

/-- deserializeLoadout from App.tsx: container sizes are re-derived
from the restored augment, never read from the serialized data. -/
def deserializeLoadout (aid : String → Option Item) (data : SerializedLoadout) :
    LoadoutState :=
  let augment := dMapItem aid data.augment
  { title := match data.title with
             | none => "LOADOUT"
             | some t => if t = "" then "LOADOUT" else t
    augment := augment
    shield := dMapItem aid data.shield
    weapons := padI (data.weapons.map (dMapItem aid)) 2
    backpack := padI (data.backpack.map (dMapItem aid)) (slotsD augment "backpack" 16)
    quickUse := padI (data.quickUse.map (dMapItem aid)) (slotsD augment "quick_use" 3)
    extra := padI (data.extra.map (dMapItem aid)) (calculateExtraSlotsCount augment)
    safePocket := padI (data.safePocket.map (dMapItem aid)) (slotsD augment "safe_pocket" 0) }

/-! ## Round-trip equivalence and the reachability invariant -/

/-- The id of the modification mounted at index j, if any. -/
def modIdAt (i : Item) (j : Nat) : Option String :=
  ((i.modifications.getD []).getD j none).map Item.id

/-- Slot equivalence in the sense of the round-trip property: same
occupancy, same item id, same effective count, same mounted
modification ids position by position. -/
def itemEquiv : Option Item → Option Item → Prop
  | none, none => True
  | some a, some b => a.id = b.id ∧ countD a = countD b ∧ ∀ j, modIdAt a j = modIdAt b j
  | _, _ => False

/-- Position-wise slot equivalence of arrays (positions beyond either
length count as empty). -/
def cellsEquiv (xs ys : List (Option Item)) : Prop :=
  ∀ j, itemEquiv (xs.getD j none) (ys.getD j none)

/-- Loadout equivalence: every slot equivalent. -/
def loadoutEquiv (a b : LoadoutState) : Prop :=
  itemEquiv a.augment b.augment ∧ itemEquiv a.shield b.shield ∧
  cellsEquiv a.weapons b.weapons ∧ cellsEquiv a.backpack b.backpack ∧
  cellsEquiv a.quickUse b.quickUse ∧ cellsEquiv a.extra b.extra ∧
  cellsEquiv a.safePocket b.safePocket

/-- A mounted modification restorable from the catalog. -/
def modWF (aid : String → Option Item) : Option Item → Bool
  | none => true
  | some m =>
    match aid m.id with
    | none => false
    | some mbase => mbase.id == m.id

/-- An occupied slot restorable from the catalog: the id resolves to a
base item with the same id, and a modifications array fits into the
base item declared modification slots. -/
def cellWF (aid : String → Option Item) : Option Item → Bool
  | none => true
  | some i =>
    match aid i.id with
    | none => false
    | some base =>
      base.id == i.id &&
      (match i.modifications, base.supportedModifications with
       | none, none => base.modifications.isNone
       | none, some _ => true
       | some ms, some bsm => decide (ms.length ≤ bsm.length) && ms.all (modWF aid)
       | some _, none => false)

/-- The capacity map carried by an optional item. -/
def optSlots : Option Item → Option (List (String × Nat))
  | none => none
  | some a => a.slots

/-- The equipped augment agrees with its catalog base on the capacity
map (equips copy the base item, so this holds in every reachable
state). -/
def augSlotsWF (aid : String → Option Item) : Option Item → Bool
  | none => true
  | some a =>
    match aid a.id with
    | none => false
    | some base => base.slots == a.slots

/-- The reachability invariant under which the round-trip holds: every
occupied cell is catalog-restorable and every pooled array has the
capacity derived from the equipped augment. -/
def WFb (aid : String → Option Item) (l : LoadoutState) : Bool :=
  cellWF aid l.augment && cellWF aid l.shield &&
  l.weapons.all (cellWF aid) && l.backpack.all (cellWF aid) &&
  l.quickUse.all (cellWF aid) && l.extra.all (cellWF aid) &&
  l.safePocket.all (cellWF aid) &&
  l.weapons.length == 2 &&
  l.backpack.length == slotsD l.augment "backpack" 16 &&
  l.quickUse.length == slotsD l.augment "quick_use" 3 &&
  l.safePocket.length == slotsD l.augment "safe_pocket" 0 &&
  l.extra.length == calculateExtraSlotsCount l.augment &&
  augSlotsWF aid l.augment

/-! ## Further concrete fixtures -/

/-- An ammo stack that carries a recipe (2 metal per craft). -/
def rAmmo (c : Nat) : Item :=
  .mk "ammo_craft" "Craftable Ammo" ["Ammunition"] "Common" (some [("metal", 2)])
    (some 100) (some c) none none none false none none none

/-- A scope that carries a recipe. -/
def rScope : Item :=
  .mk "scope_craft" "Craftable Scope" ["Modification", "Sight"] "Rare"
    (some [("metal", 2)]) none (some 1) none none none false none none none

/-- A weapon without a recipe carrying a craftable scope in its Sight
slot. -/
def rGun : Item :=
  .mk "gun_norecipe" "Recipe-less Gun" ["Weapon", "Gun"] "Rare" none none (some 1) none
    none none false (some ["Sight"]) (some [some rScope]) none

/-- Loadout holding only the recipe-less weapon with its craftable
scope. -/
def c4L : LoadoutState :=
  { emptyL with weapons := [some rGun, none] }

/-- Loadout holding two craftable ammo stacks of counts 3 and 5. -/
def c4L2 : LoadoutState :=
  { emptyL with backpack := [some (rAmmo 3), some (rAmmo 5)] ++ List.replicate 14 none }

/-- A Rare crafting material. -/
def matRare : Item :=
  .mk "mat_rare" "Rare Material" ["Material"] "Rare" none none none none
    none none false none none none

/-- A recyclable candidate yielding 20 units of the Rare material. -/
def recA : Item :=
  .mk "rec_a" "Candidate A" ["Recyclable"] "Common" none none none none
    none none false none none (some [("mat_rare", 20)])

/-- A recyclable candidate yielding 4 units of the Rare material. -/
def recB : Item :=
  .mk "rec_b" "Candidate B" ["Recyclable"] "Common" none none none none
    none none false none none (some [("mat_rare", 4)])

/-- A recyclable candidate yielding only an unneeded material. -/
def recC : Item :=
  .mk "rec_c" "Candidate C" ["Recyclable"] "Common" none none none none
    none none false none none (some [("mat_other", 9)])

/-- Catalog for the recycle fixtures. -/
def recAid : List (String × Item) :=
  [("mat_rare", matRare), ("rec_a", recA), ("rec_b", recB), ("rec_c", recC)]

/-- Catalog base of the ammo item (no count). -/
def bAmmo : Item :=
  .mk "ammo_light" "Light Ammo" ["Ammunition"] "Common" none (some 100) none none
    none none false none none none

/-- Catalog base of the scope. -/
def bScope : Item :=
  .mk "scope" "Scope" ["Modification", "Sight"] "Rare" none none none none
    none none false none none none

/-- Catalog base of the weapon (one declared Sight slot, no mounted
modifications). -/
def bGun : Item :=
  .mk "gun" "Gun" ["Weapon", "Gun"] "Rare" none none none none
    none none false (some ["Sight"]) none none

/-- Catalog base of a capacity augment: backpack 4, quick-use 2,
safe-pocket 1, one trinket extra slot. -/
def bAug : Item :=
  .mk "aug_cap" "Capacity Augment" ["Augment"] "Rare" none none none none
    none (some [("backpack", 4), ("quick_use", 2), ("safe_pocket", 1), ("trinket", 1)])
    false none none none

/-- A catalog lookup function for the round-trip witness. -/
def catalog0 : String → Option Item := fun k =>
  if k = "ammo_light" then some bAmmo
  else if k = "scope" then some bScope
  else if k = "gun" then some bGun
  else if k = "aug_cap" then some bAug
  else none

/-- A reachable loadout for the round-trip witness: capacity augment
equipped, a weapon carrying a mounted scope, an ammo stack of 7. -/
def wfL : LoadoutState :=
  { title := "LOADOUT"
    augment := some (bAug.withCount (some 1))
    shield := none
    weapons := [some ((bGun.withCount (some 1)).withMods (some [some (bScope.withCount (some 1))])), none]
    backpack := [some (bAmmo.withCount (some 7)), none, none, none]
    quickUse := [none, none]
    extra := [none]
    safePocket := [none] }

/-- A six-slot pool used to exercise a capacity shrink: occupied slots
at 0, 2, 4, 5 and gaps at 1 and 3. -/
def shrinkItems : List (Option Item) :=
  [some tBandage, none, some tScope, none, some (tAmmo 7), some (tAmmo 9)]

/-! ## Helper lemmas -/

theorem Item.count_withCount (i : Item) (x : Option Nat) : (i.withCount x).count = x := by
  cases i; rfl

theorem countD_withCount (i : Item) (x : Option Nat) : countD (i.withCount x) = natD1 x := by
  unfold countD natD1
  rw [Item.count_withCount]

theorem countD_ne_zero (i : Item) : countD i ≠ 0 := by
  unfold countD
  cases h : i.count with
  | none => simp
  | some n => cases n <;> simp

theorem shieldEvict_compat (s : LoadoutState) :
    isShieldCompatible (applyShieldEvict s).shield (applyShieldEvict s).augment = true := by
  unfold applyShieldEvict
  by_cases h : s.shield.isSome = true ∧ isShieldCompatible s.shield s.augment = false
  · rw [if_pos h]
    rfl
  · rw [if_neg h]
    cases hs : s.shield with
    | none => rfl
    | some sh =>
      rw [hs] at h
      cases hc : isShieldCompatible (some sh) s.augment with
      | false => exact absurd ⟨rfl, hc⟩ h
      | true => rfl

theorem getIdx_setIdx_ne (xs : List (Option Item)) (ti i : Int) (v : Option Item)
    (h : i ≠ ti) : getIdx (setIdx xs ti v) i = getIdx xs i := by
  unfold getIdx setIdx
  by_cases hti : 0 ≤ ti
  · rw [if_pos hti]
    by_cases hi : 0 ≤ i
    · rw [if_pos hi, if_pos hi, List.getD_eq_getElem?_getD, List.getD_eq_getElem?_getD,
        List.getElem?_set_ne (by omega)]
    · rw [if_neg hi, if_neg hi]
  · rw [if_neg hti]

theorem getCell_setCell_ne (l : LoadoutState) (ts : Sec) (ti : Int) (v : Option Item)
    (ss : Sec) (i : Int) (h : ss ≠ ts ∨ (isArraySec ss = true ∧ i ≠ ti)) :
    (l.setCell ts ti v).getCell ss i = l.getCell ss i := by
  rcases h with h | ⟨ha, hnei⟩
  · cases ss <;> cases ts <;> try (exact absurd rfl h)
    all_goals simp only [LoadoutState.getCell, LoadoutState.setCell]
    all_goals split <;> first | rfl | (split <;> rfl)
  · cases ss <;> simp only [isArraySec] at ha
    all_goals try (exact Bool.noConfusion ha)
    all_goals cases ts <;> simp only [LoadoutState.getCell, LoadoutState.setCell]
    all_goals split <;>
      first
        | rfl
        | (split <;> first | rfl | exact getIdx_setIdx_ne _ _ _ _ hnei)

/-! ## C8: canEquip with a modification index -/

/-- C8 (amended): with a modification index set, a target in the
weapons section is legal iff the weapon slot at the target index is
occupied and its declared modification category at that index is
defined, non-empty and one of the item categories; for every other
section the modification index is ignored and the ordinary decision
table applies unchanged. -/
theorem canEquip_modIndex (l : LoadoutState) (item : Item) (ti tmi : Int)
    (h : tmi ≠ -1) :
    (canEquip l item .weapons ti tmi = true ↔
      ∃ w sm rc, getIdx l.weapons ti = some w ∧
        w.supportedModifications = some sm ∧
        strGet sm tmi = some rc ∧ rc ≠ "" ∧ item.category.contains rc = true) ∧
    (∀ s : Sec, s ≠ .weapons → canEquip l item s ti tmi = canEquip l item s ti (-1)) := by
  constructor
  · unfold canEquip
    rw [if_pos ⟨rfl, h⟩]
    cases hw : getIdx l.weapons ti with
    | none => simp [hw]
    | some w =>
      cases hsm : w.supportedModifications with
      | none => simp [hw, hsm]
      | some sm =>
        cases hrc : strGet sm tmi with
        | none => simp [hw, hsm, hrc]
        | some rc =>
          by_cases hempty : rc = ""
          · subst hempty
            simp [hsm, hrc]
          · simp [hsm, hrc, hempty]
  · intro s hs
    have h1 : ¬ (s = Sec.weapons ∧ tmi ≠ -1) := fun hc => hs hc.1
    have h2 : ¬ (s = Sec.weapons ∧ (-1 : Int) ≠ -1) := fun hc => hc.2 rfl
    unfold canEquip
    rw [if_neg h1, if_neg h2]

/-- C8 counterexample: the claim covers every target with a
modification index set, but outside the weapons section the index is
ignored: ammunition dropped on backpack index 0 with modification index
5 passes canEquip although the weapon slot at the target index is
unoccupied, so the claimed iff fails there. -/
theorem canEquip_modIndex_cx :
    canEquip emptyL (tAmmo 60) .backpack 0 5 = true ∧ (5 : Int) ≠ -1 ∧
    getIdx emptyL.weapons 0 = none :=
  ⟨rfl, by decide, rfl⟩

/-- C8 witness: the amended rule evaluated on the scope/weapon
fixture. -/
theorem canEquip_modIndex_witness :
    canEquip modSrcL tScope .weapons 0 0 = true :=
  ((canEquip_modIndex modSrcL tScope 0 0 (by decide)).1).mpr
    ⟨tGun, ["Sight"], "Sight", rfl, rfl, rfl, by decide, rfl⟩

/-! ## C6: stack-split arithmetic on drag start -/

/-- C6: from an equipped slot with the alt modifier, a stackable stack
of count c greater than 1 yields a dragged stack of floor(c, 2) flagged
as a split, and the source displays c minus the split amount; a stack
of effective count 1 never splits and drags an effective count of 1; a
non-stackable item never splits for any source or modifier and, on the
counts a non-stackable stack instance can carry, always drags an
effective count of 1. -/
theorem dragStart_split_behaviour (item : Item) (src : Sec) (alt : Bool) :
    (src ≠ .inventory → alt = true → truthyNat item.stackSize = true → 1 < countD item →
      handleDragStart item src alt = (item.withCount (some (countD item / 2)), true) ∧
      splitRemainderDisplay item (item.withCount (some (countD item / 2))) =
        countD item - countD item / 2) ∧
    (src ≠ .inventory → countD item = 1 →
      (handleDragStart item src alt).2 = false ∧
      countD (handleDragStart item src alt).1 = 1) ∧
    (truthyNat item.stackSize = false → (handleDragStart item src alt).2 = false) ∧
    (src ≠ .inventory → truthyNat item.stackSize = false →
      (item.count = none ∨ item.count = some 1) →
      countD (handleDragStart item src alt).1 = 1) := by
  refine ⟨?_, ?_, ?_, ?_⟩
  · intro hsrc halt hss hc
    unfold handleDragStart
    rw [if_neg (fun hc2 => hsrc hc2.1), if_pos ⟨hsrc, halt, hss, hc⟩]
    refine ⟨rfl, ?_⟩
    unfold splitRemainderDisplay
    rw [countD_withCount]
    have h2 : 0 < countD item / 2 := Nat.div_pos (by omega) (by decide)
    cases hv : countD item / 2 with
    | zero => omega
    | succ n => rfl
  · intro hsrc hc
    unfold handleDragStart
    rw [if_neg (fun hc2 => hsrc hc2.1),
        if_neg (fun hc2 => absurd hc2.2.2.2 (by omega))]
    by_cases h3 : src ≠ Sec.inventory ∧ ¬ truthyNat item.count = true
    · rw [if_pos h3]
      exact ⟨rfl, by rw [countD_withCount]; rfl⟩
    · rw [if_neg h3]
      exact ⟨rfl, hc⟩
  · intro hss
    unfold handleDragStart
    rw [if_neg (fun hc2 => by rw [hc2.2] at hss; cases hss),
        if_neg (fun hc2 => by rw [hc2.2.2.1] at hss; cases hss)]
    by_cases h3 : src ≠ Sec.inventory ∧ ¬ truthyNat item.count = true
    · rw [if_pos h3]
    · rw [if_neg h3]
  · intro hsrc hss hcount
    unfold handleDragStart
    rw [if_neg (fun hc2 => hsrc hc2.1),
        if_neg (fun hc2 => by rw [hc2.2.2.1] at hss; cases hss)]
    by_cases h3 : src ≠ Sec.inventory ∧ ¬ truthyNat item.count = true
    · rw [if_pos h3, countD_withCount]
      rfl
    · rw [if_neg h3]
      rcases hcount with hn | h1
      · exfalso
        exact h3 ⟨hsrc, by rw [hn]; decide⟩
      · unfold countD
        rw [h1]

/-- C6 witness: a 60 stack splits to 30, a 1 stack does not split, a
non-stackable weapon does not split. -/
theorem dragStart_split_witness :
    handleDragStart (tAmmo 60) .backpack true = ((tAmmo 60).withCount (some 30), true) ∧
    (handleDragStart (tAmmo 1) .backpack true).2 = false ∧
    (handleDragStart tGun .backpack true).2 = false := by
  refine ⟨?_, ?_, ?_⟩
  · exact ((dragStart_split_behaviour (tAmmo 60) .backpack true).1 (by decide) rfl rfl
      (by decide)).1
  · exact ((dragStart_split_behaviour (tAmmo 1) .backpack true).2.1 (by decide) rfl).1
  · exact (dragStart_split_behaviour tGun .backpack true).2.2.1 rfl

/-! ## C10: touch drags never split -/

/-- C10: handleTouchStart always returns a session whose split flag is
false and whose dragged count is the full stack (the stack size when
the source is the inventory pool with a stackable item, otherwise the
effective stack count); the pointer path without the alt modifier never
splits either, so the split branch is reachable only from alt-key
pointer drags. -/
theorem touchStart_no_split (item : Item) (src : Sec) (alt : Bool) :
    (handleTouchStart item src).2 = false ∧
    (src = .inventory → truthyNat item.stackSize = true →
      (handleTouchStart item src).1.count = item.stackSize) ∧
    (src ≠ .inventory → countD (handleTouchStart item src).1 = countD item) ∧
    (alt = false → (handleDragStart item src alt).2 = false) := by
  refine ⟨?_, ?_, ?_, ?_⟩
  · unfold handleTouchStart
    by_cases h1 : src = Sec.inventory ∧ truthyNat item.stackSize = true
    · rw [if_pos h1]
    · rw [if_neg h1]
      by_cases h2 : src ≠ Sec.inventory ∧ ¬ truthyNat item.count = true
      · rw [if_pos h2]
      · rw [if_neg h2]
  · intro hsrc hss
    unfold handleTouchStart
    rw [if_pos ⟨hsrc, hss⟩, Item.count_withCount]
  · intro hsrc
    unfold handleTouchStart
    rw [if_neg (fun hc2 => hsrc hc2.1)]
    by_cases h2 : src ≠ Sec.inventory ∧ ¬ truthyNat item.count = true
    · rw [if_pos h2, countD_withCount]
      have hcc : item.count = none ∨ item.count = some 0 := by
        rcases h2 with ⟨-, h⟩
        cases hc : item.count with
        | none => exact Or.inl rfl
        | some n =>
          cases n with
          | zero => exact Or.inr rfl
          | succ k => rw [hc] at h; exact absurd rfl h
      unfold countD
      rcases hcc with h | h <;> rw [h] <;> rfl
    · rw [if_neg h2]
  · intro halt
    unfold handleDragStart
    by_cases h1 : src = Sec.inventory ∧ truthyNat item.stackSize = true
    · rw [if_pos h1]
    · rw [if_neg h1, if_neg (fun hc2 => by rw [halt] at hc2; cases hc2.2.1)]
      by_cases h3 : src ≠ Sec.inventory ∧ ¬ truthyNat item.count = true
      · rw [if_pos h3]
      · rw [if_neg h3]

/-- C10 witness: touch drags carry the full count without splitting. -/
theorem touchStart_no_split_witness :
    (handleTouchStart (tAmmo 60) .backpack).2 = false ∧
    (handleTouchStart (tAmmo 60) .inventory).1.count = (tAmmo 60).stackSize ∧
    countD (handleTouchStart (tAmmo 60) .backpack).1 = 60 ∧
    (handleDragStart (tAmmo 60) .backpack false).2 = false :=
  ⟨(touchStart_no_split (tAmmo 60) .backpack false).1,
   (touchStart_no_split (tAmmo 60) .inventory false).2.1 rfl rfl,
   (touchStart_no_split (tAmmo 60) .backpack false).2.2.1 (by decide),
   (touchStart_no_split (tAmmo 60) .backpack false).2.2.2 rfl⟩

/-! ## C2: shield re-validation on augment-touching mutations -/

/-- C2 (amended): every non-modification-target handleItemEquip commit
with the augment slot as source or target either leaves the state
untouched or leaves the shield compatible with the augment (evicting it
when it is not), and every unequip-to-inventory from the augment slot
does the same; the eviction is skipped only on the modification-target
commit path. -/
theorem equip_touching_augment_evicts (l : LoadoutState) (item : Item) (ss : Sec)
    (si smi : Option Int) (isSplit : Bool) (ts : Sec) (ti : Int)
    (haug : ss = .augment ∨ ts = .augment) :
    (handleItemEquip l item ss si smi isSplit ts ti (-1) = l ∨
      isShieldCompatible (handleItemEquip l item ss si smi isSplit ts ti (-1)).shield
        (handleItemEquip l item ss si smi isSplit ts ti (-1)).augment = true) ∧
    (∀ si2 smi2 : Option Int,
      unequipToInventory l .augment si2 smi2 = l ∨
      isShieldCompatible (unequipToInventory l .augment si2 smi2).shield
        (unequipToInventory l .augment si2 smi2).augment = true) := by
  have hevict : ∀ s2 : LoadoutState,
      isShieldCompatible (evictIf ss ts s2).shield (evictIf ss ts s2).augment = true := by
    intro s2
    unfold evictIf
    rw [if_pos haug.symm]
    exact shieldEvict_compat s2
  constructor
  · unfold handleItemEquip
    split
    · exact Or.inl rfl
    split
    · exact Or.inl rfl
    split
    · exact Or.inl rfl
    rw [if_neg (by omega : ¬ ((-1 : Int) ≠ -1))]
    unfold commitNonMod
    dsimp only
    repeat' split
    all_goals first
      | exact Or.inl rfl
      | exact Or.inr (hevict _)
  · intro si2 smi2
    unfold unequipToInventory
    rw [if_neg (by decide)]
    cases si2 with
    | none => exact Or.inl rfl
    | some i =>
      dsimp only
      rw [if_pos rfl]
      exact Or.inr (shieldEvict_compat _)

/-- C2 counterexample: dragging an augment that also matches a weapon
modification slot from the augment slot into that modification slot
removes the augment but leaves the now-incompatible medium shield
mounted, because the modification-target commit path skips the
shield-compatibility side effect. -/
theorem equip_augment_evict_cx :
    (handleItemEquip c2L tAugSight .augment (some (-1)) none false .weapons 0 0).augment
      = none ∧
    (handleItemEquip c2L tAugSight .augment (some (-1)) none false .weapons 0 0).shield
      = some tMedShield ∧
    isShieldCompatible (some tMedShield) none = false ∧
    c2L.augment = some tAugSight :=
  ⟨rfl, rfl, rfl, rfl⟩

/-- C2 witness: equipping a plain augment over the odd augment, and
unequipping the augment, both leave the shield compatible. -/
theorem equip_touching_augment_evicts_witness :
    ((handleItemEquip c2L tAug2 .inventory none none false .augment (-1) (-1) = c2L ∨
      isShieldCompatible
        (handleItemEquip c2L tAug2 .inventory none none false .augment (-1) (-1)).shield
        (handleItemEquip c2L tAug2 .inventory none none false .augment (-1) (-1)).augment
        = true)) ∧
    (unequipToInventory c2L .augment (some (-1)) none = c2L ∨
      isShieldCompatible (unequipToInventory c2L .augment (some (-1)) none).shield
        (unequipToInventory c2L .augment (some (-1)) none).augment = true) :=
  ⟨(equip_touching_augment_evicts c2L tAug2 .inventory none none false .augment (-1)
      (Or.inr rfl)).1,
   (equip_touching_augment_evicts c2L tAug2 .inventory none none false .augment (-1)
      (Or.inr rfl)).2 (some (-1)) none⟩

/-! ## C1: swap with a different occupant -/

/-- C1 (amended): dropping a non-split stack onto a non-modification
slot occupied by a different item places the dragged stack (at its
effective count) at the target; when the source is the inventory pool
the displaced occupant simply leaves the loadout, and when the source
is a plain loadout slot the displaced occupant is relocated to it; in
both cases the augment-shield side effect closes the commit.  (When the
source is a modification sub-slot the displaced occupant is discarded
instead, see the counterexample.) -/
theorem equip_swap_nonmod (l : LoadoutState) (item : Item) (ss : Sec) (si smi : Option Int)
    (ts : Sec) (ti : Int) (B : Item)
    (hB : l.getCell ts ti = some B)
    (hid : B.id ≠ item.id)
    (hguard : ¬ (ss = ts ∧ si = some ti ∧ smi = some (-1)))
    (hint : ¬ (ts = .extra ∧
      (strGet (extraSlotTypes l.augment) ti = some "integrated_binoculars" ∨
       strGet (extraSlotTypes l.augment) ti = some "integrated_shield_recharger")))
    (hcan : canEquip l item ts ti (-1) = true) :
    (ss = .inventory →
      handleItemEquip l item ss si smi false ts ti (-1) =
        evictIf ss ts (l.setCell ts ti (some (item.withCount (some (countD item)))))) ∧
    (∀ i, ss ≠ .inventory → si = some i → (smi = none ∨ smi = some (-1)) →
      handleItemEquip l item ss si smi false ts ti (-1) =
        evictIf ss ts
          ((l.setCell ts ti (some (item.withCount (some (countD item))))).setCell ss i
            (some B))) := by
  have hbeq : (B.id == item.id) = false := beq_eq_false_iff_ne.mpr hid
  have hstep : handleItemEquip l item ss si smi false ts ti (-1) =
      evictIf ss ts
        (sourceUpdate (l.setCell ts ti (some (item.withCount (some (countD item)))))
          (some B) item ss si smi false (countD item)) := by
    unfold handleItemEquip
    rw [if_neg hguard, if_neg hint,
        if_neg (by rw [hcan]; simp : ¬ (canEquip l item ts ti (-1) = false)),
        if_neg (by omega : ¬ ((-1 : Int) ≠ -1))]
    unfold commitNonMod
    simp only [hB, hbeq, Bool.false_and, Bool.not_false, Bool.true_and, Option.isSome_some,
      Bool.and_false, Bool.false_eq_true, if_false, if_neg (countD_ne_zero item)]
  constructor
  · intro hss
    rw [hstep]
    unfold sourceUpdate
    rw [if_neg (fun hc => hc.1 hss)]
  · intro i hss hsi hsmi
    rw [hstep]
    unfold sourceUpdate
    rw [if_pos ⟨hss, by rw [hsi]; rfl⟩]
    dsimp only
    rw [hsi]
    have hsm : ¬ (smi.isSome = true ∧ smi ≠ some (-1)) := by
      rcases hsmi with h | h <;> rw [h]
      · exact fun hc => by cases hc.1
      · exact fun hc => hc.2 rfl
    rw [if_neg hsm,
        if_pos ⟨rfl, fun hc => hid (Option.some.inj hc), by simp⟩]
    rfl

/-- C1 counterexample: when the dragged stack comes from a weapon
modification sub-slot, the displaced different-id occupant is not
relocated to that source location: the scope lands at the target, the
source modification slot is cleared, and the bandage is discarded. -/
theorem equip_swap_modsource_cx :
    canEquip modSrcL tScope .backpack 0 (-1) = true ∧
    modSrcL.getCell .backpack 0 = some tBandage ∧
    tBandage.id ≠ tScope.id ∧
    modSrcL.getModCell .weapons 0 0 = some tScope ∧
    (handleItemEquip modSrcL tScope .weapons (some 0) (some 0) false .backpack 0
      (-1)).getCell .backpack 0 = some (tScope.withCount (some 1)) ∧
    (handleItemEquip modSrcL tScope .weapons (some 0) (some 0) false .backpack 0
      (-1)).getModCell .weapons 0 0 = none :=
  ⟨rfl, rfl, by decide, rfl, rfl, rfl⟩

/-- C1 witness: ammo dropped on the bandage slot swaps the bandage back
to the ammo slot. -/
theorem equip_swap_nonmod_witness :
    handleItemEquip swapL (tAmmo 60) .backpack (some 1) none false .backpack 0 (-1) =
      evictIf .backpack .backpack
        ((swapL.setCell .backpack 0 (some ((tAmmo 60).withCount (some 60)))).setCell
          .backpack 1 (some tBandage)) :=
  (equip_swap_nonmod swapL (tAmmo 60) .backpack (some 1) none .backpack 0 tBandage
    rfl (by decide) (by decide) (by decide) rfl).2 1 (by decide) rfl (Or.inl rfl)

/-! ## C3: merge into a same-id stack -/

/-- C3: dropping a stack of effective count c onto a non-modification
slot holding a same-id stack with stack size S and effective count t
moves exactly min(c, S - t) units: the whole commit is a no-op when the
headroom is zero, and otherwise the target becomes t + min(c, S - t),
the source keeps the remainder and is removed when the remainder
reaches zero, and the augment-shield side effect closes the commit. -/
theorem equip_merge_nonmod (l : LoadoutState) (item : Item) (ss : Sec) (si smi : Option Int)
    (isSplit : Bool) (ts : Sec) (ti : Int) (B : Item) (S : Nat)
    (hB : l.getCell ts ti = some B)
    (hid : B.id = item.id)
    (hS : B.stackSize = some S) (hS0 : 0 < S) (hle : countD B ≤ S)
    (hguard : ¬ (ss = ts ∧ si = some ti ∧ smi = some (-1)))
    (hint : ¬ (ts = .extra ∧
      (strGet (extraSlotTypes l.augment) ti = some "integrated_binoculars" ∨
       strGet (extraSlotTypes l.augment) ti = some "integrated_shield_recharger")))
    (hcan : canEquip l item ts ti (-1) = true) :
    (countD B = S → handleItemEquip l item ss si smi isSplit ts ti (-1) = l) ∧
    (countD B < S → ss = .inventory →
      handleItemEquip l item ss si smi isSplit ts ti (-1) =
        evictIf ss ts (l.setCell ts ti
          (some (B.withCount (some (countD B + min (countD item) (S - countD B))))))) ∧
    (∀ i A, countD B < S → ss ≠ .inventory → si = some i → (smi = none ∨ smi = some (-1)) →
      (ss ≠ ts ∨ (isArraySec ss = true ∧ i ≠ ti)) → l.getCell ss i = some A →
      handleItemEquip l item ss si smi isSplit ts ti (-1) =
        evictIf ss ts
          ((l.setCell ts ti
            (some (B.withCount (some (countD B + min (countD item) (S - countD B)))))).setCell
              ss i
            (if 0 < countD A - min (countD item) (S - countD B) then
              some (A.withCount (some (countD A - min (countD item) (S - countD B))))
             else none))) := by
  have hbeq : (B.id == item.id) = true := beq_iff_eq.mpr hid
  have htS : truthyNat (some S) = true := by
    cases S with
    | zero => omega
    | succ n => rfl
  have hstep : handleItemEquip l item ss si smi isSplit ts ti (-1) =
      commitNonMod l item ss si smi isSplit ts ti := by
    unfold handleItemEquip
    rw [if_neg hguard, if_neg hint,
        if_neg (by rw [hcan]; simp : ¬ (canEquip l item ts ti (-1) = false)),
        if_neg (by omega : ¬ ((-1 : Int) ≠ -1))]
  have hstep2 : commitNonMod l item ss si smi isSplit ts ti =
      (if min (countD item) (S - countD B) = 0 then l
       else
        evictIf ss ts
          (sourceUpdate
            (l.setCell ts ti
              (some (B.withCount (some (countD B + min (countD item) (S - countD B))))))
            (some B) item ss si smi isSplit (min (countD item) (S - countD B)))) := by
    unfold commitNonMod
    simp [hB, hbeq, htS, hS]
  refine ⟨?_, ?_, ?_⟩
  · intro heq
    rw [hstep, hstep2, if_pos (by omega)]
  · intro hlt hss
    rw [hstep, hstep2, if_neg (by have := countD_ne_zero item; omega)]
    unfold sourceUpdate
    rw [if_neg (fun hc => hc.1 hss)]
  · intro i A hlt hss hsi hsmi hconf hA
    rw [hstep, hstep2, if_neg (by have := countD_ne_zero item; omega)]
    unfold sourceUpdate
    rw [if_pos ⟨hss, by rw [hsi]; rfl⟩]
    dsimp only
    rw [hsi]
    have hsm : ¬ (smi.isSome = true ∧ smi ≠ some (-1)) := by
      rcases hsmi with h | h <;> rw [h]
      · exact fun hc => by cases hc.1
      · exact fun hc => hc.2 rfl
    rw [if_neg hsm, if_neg (fun hc => hc.2.1 (by simp [hid]))]
    unfold decrementSource
    simp only [Option.getD_some, getCell_setCell_ne l ts ti _ ss i hconf, hA]
    rfl

/-- C3 witness: merging 60 into a 50 stack of size 100 moves 50 units
leaving 10 at the source, and merging into a full stack is a no-op on
the whole state. -/
theorem equip_merge_nonmod_witness :
    (handleItemEquip mergeL (tAmmo 60) .backpack (some 1) none false .backpack 0 (-1) =
      evictIf .backpack .backpack
        ((mergeL.setCell .backpack 0 (some ((tAmmo 50).withCount (some 100)))).setCell
          .backpack 1 (some ((tAmmo 60).withCount (some 10))))) ∧
    handleItemEquip mergeL2 (tAmmo 60) .backpack (some 1) none false .backpack 0 (-1) =
      mergeL2 := by
  constructor
  · exact (equip_merge_nonmod mergeL (tAmmo 60) .backpack (some 1) none false .backpack 0
      (tAmmo 50) 100 rfl rfl rfl (by decide) (by decide) (by decide) (by decide)
      rfl).2.2 1 (tAmmo 60) (by decide) (by decide) rfl (Or.inl rfl)
      (Or.inr ⟨rfl, by decide⟩) rfl
  · exact (equip_merge_nonmod mergeL2 (tAmmo 60) .backpack (some 1) none false .backpack 0
      (tAmmo 100) 100 rfl rfl rfl (by decide) (by decide) (by decide) (by decide)
      rfl).1 rfl

/-! ## C5: augment-driven capacity resizing -/

theorem fillGaps_length (kept : List (Option Item)) :
    ∀ ov, (fillGaps kept ov).length = kept.length := by
  induction kept with
  | nil => intro ov; rfl
  | cons x rest ih =>
    intro ov
    cases x with
    | none =>
      cases ov with
      | nil => rfl
      | cons o ov2 => simp [fillGaps, ih]
    | some y => simp [fillGaps, ih]

theorem fillGaps_get_some (kept : List (Option Item)) :
    ∀ ov j x, kept.getD j none = some x → (fillGaps kept ov).getD j none = some x := by
  induction kept with
  | nil =>
    intro ov j x h
    simp [List.getD] at h
  | cons hd rest ih =>
    intro ov j x h
    cases hd with
    | none =>
      cases ov with
      | nil => exact h
      | cons o ov2 =>
        cases j with
        | zero => simp [List.getD] at h
        | succ k =>
          simp only [fillGaps]
          exact ih ov2 k x h
    | some y =>
      cases j with
      | zero => simpa [fillGaps] using h
      | succ k =>
        simp only [fillGaps]
        exact ih ov k x h

theorem gapPositions_getD (kept : List (Option Item)) :
    (gapPositions kept).map (fun p => kept.getD p none) =
      List.replicate (gapPositions kept).length none := by
  induction kept with
  | nil => rfl
  | cons hd rest ih =>
    cases hd with
    | none =>
      simp only [gapPositions, List.map_cons, List.map_map, List.length_cons,
        List.length_map, List.replicate_succ]
      refine congrArg (fun t => none :: t) ?_
      exact ih
    | some y =>
      simp only [gapPositions, List.map_map, List.length_map]
      exact ih

theorem fillGaps_gaps (kept : List (Option Item)) :
    ∀ ov, (gapPositions kept).map (fun p => (fillGaps kept ov).getD p none) =
      (ov.map some).take (gapPositions kept).length ++
        List.replicate ((gapPositions kept).length - ov.length) none := by
  induction kept with
  | nil => intro ov; simp [gapPositions]
  | cons hd rest ih =>
    intro ov
    cases hd with
    | none =>
      cases ov with
      | nil =>
        simp only [fillGaps, gapPositions, List.map_cons, List.map_map, List.map_nil,
          List.take_nil, List.nil_append, List.length_nil, List.length_cons,
          List.length_map, Nat.sub_zero, List.replicate_succ]
        refine congrArg (fun t => none :: t) ?_
        exact gapPositions_getD rest
      | cons o ov2 =>
        simp only [fillGaps, gapPositions, List.map_cons, List.map_map, List.length_cons,
          List.length_map, List.take_succ_cons, Nat.succ_sub_succ, List.cons_append]
        refine congrArg (fun t => some o :: t) ?_
        exact ih ov2
    | some y =>
      simp only [fillGaps, gapPositions, List.map_map, List.length_map]
      exact ih ov

theorem fillGaps_filterMap_length (kept : List (Option Item)) :
    ∀ ov, ((fillGaps kept ov).filterMap id).length =
      ((kept.filterMap id).length + min (gapPositions kept).length ov.length) := by
  induction kept with
  | nil => intro ov; simp [fillGaps, gapPositions]
  | cons hd rest ih =>
    intro ov
    cases hd with
    | none =>
      cases ov with
      | nil => simp [fillGaps, gapPositions]
      | cons o ov2 =>
        simp only [fillGaps, gapPositions, List.filterMap_cons, List.length_cons,
          List.length_map, Nat.succ_min_succ]
        simp only [id, List.length_cons, ih ov2]
        omega
    | some y =>
      simp only [fillGaps, gapPositions, List.filterMap_cons, List.length_map]
      simp only [id, List.length_cons, ih ov]
      omega


theorem resizeSection_length (items : List (Option Item)) (n : Nat) :
    (resizeSection items n).length = n := by
  simp only [resizeSection]
  split
  next h1 => omega
  next h1 =>
    split
    next h2 =>
      simp only [List.length_append, List.length_replicate]
      omega
    next h2 =>
      split
      next h3 =>
        rw [List.length_take]
        omega
      next h3 =>
        rw [fillGaps_length, List.length_take]
        omega

/-- C5: resizeSection always returns an array of exactly the requested
capacity; on a shrink, occupied entries of the kept prefix stay in
place, the null gaps of the kept prefix are filled in order with the
non-null items of the removed suffix (a prefix of the overflow, in
order), and the surviving item count is the kept items plus
min(gaps, overflow) so any overflow beyond the gaps is dropped from the
state entirely; the augment-change effect resizes every pooled array to
the capacity derived from the equipped augment. -/
theorem resizeSection_spec :
    (∀ items n, (resizeSection items n).length = n) ∧
    (∀ items n i x, n ≤ items.length → i < n → items.getD i none = some x →
      (resizeSection items n).getD i none = some x) ∧
    (∀ items n, n < items.length →
      (gapPositions (items.take n)).map (fun p => (resizeSection items n).getD p none) =
        (((items.drop n).filterMap id).map some).take (gapPositions (items.take n)).length ++
          List.replicate
            ((gapPositions (items.take n)).length - ((items.drop n).filterMap id).length)
            none) ∧
    (∀ items n, n < items.length →
      ((resizeSection items n).filterMap id).length =
        ((items.take n).filterMap id).length +
          min (gapPositions (items.take n)).length ((items.drop n).filterMap id).length) ∧
    (∀ aid l, (augmentResize aid l).backpack.length = slotsD l.augment "backpack" 16 ∧
      (augmentResize aid l).quickUse.length = slotsD l.augment "quick_use" 3 ∧
      (augmentResize aid l).safePocket.length = slotsD l.augment "safe_pocket" 0 ∧
      (augmentResize aid l).extra.length = extraCount l.augment) := by
  refine ⟨resizeSection_length, ?_, ?_, ?_, ?_⟩
  · intro items n i x hle hi hx
    simp only [resizeSection]
    split
    next h1 => exact hx
    next h1 =>
      split
      next h2 => exact absurd hle (by omega)
      next h2 =>
        have htake : (items.take n).getD i none = some x := by
          rw [List.getD_eq_getElem?_getD, List.getElem?_take, if_pos hi,
            ← List.getD_eq_getElem?_getD]
          exact hx
        split
        next h3 => exact htake
        next h3 => exact fillGaps_get_some _ _ i x htake
  · intro items n hlt
    simp only [resizeSection]
    rw [if_neg (by omega), if_neg (by omega)]
    split
    next h3 =>
      have hov : (items.drop n).filterMap id = [] := by
        simpa [List.isEmpty_iff] using h3
      rw [hov]
      simp only [List.map_nil, List.take_nil, List.nil_append, List.length_nil,
        Nat.sub_zero]
      exact gapPositions_getD _
    next h3 => exact fillGaps_gaps _ _
  · intro items n hlt
    simp only [resizeSection]
    rw [if_neg (by omega), if_neg (by omega)]
    split
    next h3 =>
      have hov : (items.drop n).filterMap id = [] := by
        simpa [List.isEmpty_iff] using h3
      rw [hov]
      simp
    next h3 => exact fillGaps_filterMap_length _ _
  · intro aid l
    simp only [augmentResize]
    refine ⟨resizeSection_length _ _, resizeSection_length _ _, resizeSection_length _ _, ?_⟩
    split
    next h =>
      unfold revalidateExtra
      rw [List.length_mapIdx, resizeSection_length]
    next h => rw [resizeSection_length]

/-- C5 witness: shrinking a six-slot pool to three keeps occupied kept
slots, relocates the first overflow item into the single gap, drops the
rest, and the augment-change effect resizes the backpack to the
augment-derived capacity. -/
theorem resizeSection_spec_witness :
    (resizeSection shrinkItems 3).length = 3 ∧
    (resizeSection shrinkItems 3).getD 0 none = some tBandage ∧
    (gapPositions (shrinkItems.take 3)).map
      (fun p => (resizeSection shrinkItems 3).getD p none) =
      (((shrinkItems.drop 3).filterMap id).map some).take
          (gapPositions (shrinkItems.take 3)).length ++
        List.replicate
          ((gapPositions (shrinkItems.take 3)).length -
            ((shrinkItems.drop 3).filterMap id).length) none ∧
    ((resizeSection shrinkItems 3).filterMap id).length =
      ((shrinkItems.take 3).filterMap id).length +
        min (gapPositions (shrinkItems.take 3)).length
          ((shrinkItems.drop 3).filterMap id).length ∧
    (augmentResize catalog0 wfL).backpack.length = slotsD wfL.augment "backpack" 16 :=
  ⟨resizeSection_spec.1 shrinkItems 3,
   resizeSection_spec.2.1 shrinkItems 3 0 tBandage (by decide) (by decide) rfl,
   resizeSection_spec.2.2.1 shrinkItems 3 (by decide),
   resizeSection_spec.2.2.2.1 shrinkItems 3 (by decide),
   (resizeSection_spec.2.2.2.2 catalog0 wfL).1⟩

/-! ## C4: bill-of-materials totals -/

theorem sumContrib_cons (a : Item) (l : List Item) (mat : String) :
    sumContrib (a :: l) mat = stackContrib a mat + sumContrib l mat := by
  simp [sumContrib]

theorem sumContrib_append (l1 l2 : List Item) (mat : String) :
    sumContrib (l1 ++ l2) mat = sumContrib l1 mat + sumContrib l2 mat := by
  simp [sumContrib]

theorem entriesAmt_acc (mat : String) (entries : List (String × Nat)) :
    ∀ a : Nat, entries.foldl (fun acc p => if p.1 = mat then acc + p.2 else acc) a =
      a + entries.foldl (fun acc p => if p.1 = mat then acc + p.2 else acc) 0 := by
  induction entries with
  | nil => intro a; simp
  | cons p rest ih =>
    intro a
    simp only [List.foldl_cons]
    by_cases hp : p.1 = mat
    · rw [if_pos hp, if_pos hp, ih (a + p.2), ih (0 + p.2)]
      omega
    · rw [if_neg hp, if_neg hp, ih a]

theorem addEntries_spec (mat : String) (entries : List (String × Nat)) :
    ∀ (k : Nat) (t : String → Nat),
      addEntries entries k t mat =
        t mat + (entries.foldl (fun acc p => if p.1 = mat then acc + p.2 else acc) 0) * k := by
  induction entries with
  | nil => intro k t; simp [addEntries]
  | cons p rest ih =>
    intro k t
    simp only [addEntries, List.foldl_cons] at ih ⊢
    rw [ih k]
    by_cases hp : mat = p.1
    · rw [if_pos hp, if_pos hp.symm, entriesAmt_acc mat rest (0 + p.2)]
      ring
    · rw [if_neg hp, if_neg (fun hc => hp hc.symm)]

mutual
theorem addItemRecipe_spec : ∀ (i : Item) (t : String → Nat) (mat : String),
    addItemRecipe i t mat = t mat + sumContrib (lootStacks i) mat
  | .mk a b c d recipe f g h i j k l mods m, t, mat => by
    cases recipe with
    | none => simp [addItemRecipe, lootStacks, sumContrib]
    | some entries =>
      cases mods with
      | none =>
        simp only [addItemRecipe, lootStacks, sumContrib_cons, sumContrib,
          List.map_nil, List.sum_nil]
        rw [addEntries_spec]
        simp [stackContrib, recipeAmt, Item.recipe]
      | some ms =>
        simp only [addItemRecipe, lootStacks, sumContrib_cons]
        rw [addModList_spec ms, addEntries_spec]
        simp only [stackContrib, recipeAmt, Item.recipe]
        omega

theorem addModList_spec : ∀ (ms : List (Option Item)) (t : String → Nat) (mat : String),
    addModList ms t mat = t mat + sumContrib (lootModStacks ms) mat
  | [], t, mat => by simp [addModList, lootModStacks, sumContrib]
  | none :: rest, t, mat => by
    simp only [addModList, lootModStacks]
    exact addModList_spec rest t mat
  | some x :: rest, t, mat => by
    simp only [addModList, lootModStacks, sumContrib_append]
    rw [addModList_spec rest, addItemRecipe_spec x]
    omega
end

theorem addOptItem_spec (c : Option Item) (t : String → Nat) (mat : String) :
    addOptItem t c mat = t mat + sumContrib (optLootStacks c) mat := by
  cases c with
  | none => simp [addOptItem, optLootStacks, sumContrib]
  | some i =>
    simp only [addOptItem, optLootStacks]
    exact addItemRecipe_spec i t mat

theorem foldl_addOptItem_spec (xs : List (Option Item)) :
    ∀ (t : String → Nat) (mat : String),
      (xs.foldl addOptItem t) mat = t mat + sumContrib (xs.flatMap optLootStacks) mat := by
  induction xs with
  | nil => intro t mat; simp [sumContrib]
  | cons c rest ih =>
    intro t mat
    simp only [List.foldl_cons, List.flatMap_cons, sumContrib_append]
    rw [ih, addOptItem_spec]
    omega

/-- C4 (amended): the per-material totals of getLootTable equal the sum
over the stacks it walks of recipe quantity times
ceil(count / craft-output); the walk covers every occupied slot
(augment, shield, both weapons, all pooled containers) and recurses
into mounted modifications, but only through stacks that themselves
carry a recipe; two same-recipe stacks of counts 3 and 5 with
craft-output 1 contribute exactly recipe times 8. -/
theorem getLootTotals_spec :
    (∀ l mat, getLootTotals l mat = lootRequired l mat) ∧
    getLootTotals c4L2 "metal" = 2 * 8 := by
  constructor
  · intro l mat
    unfold getLootTotals lootRequired allCells
    simp only [foldl_addOptItem_spec, addOptItem_spec, List.flatMap_cons, List.flatMap_append,
      sumContrib_append]
    omega
  · rfl

/-- C4 counterexample: a recipe-less weapon carrying a craftable scope
contributes nothing at all, because addItemRecipe returns before
recursing when the stack has no recipe; the claimed formula counts the
mounted scope. -/
theorem lootTotals_modskip_cx :
    getLootTotals c4L "metal" = 0 ∧
    specRequired c4L "metal" = 2 ∧
    c4L.getModCell .weapons 0 0 = some rScope ∧
    rScope.recipe = some [("metal", 2)] ∧
    rGun.recipe = none :=
  ⟨rfl, by decide, rfl, rfl, rfl⟩

/-! ## C7: recycle-candidate ranking -/

/-- C7: every returned recycle candidate comes from the recyclable
catalog entries with its computed clamped-and-rarity-weighted score,
zero-score candidates are discarded, at most the top 10 are returned in
descending score order, and every positive-score candidate left out
scores no more than every returned one; the rarity weights are the
fixed 1, 2, 4, 8, 16 ladder and a 20-unit yield against a 10-unit Rare
requirement scores 40. -/
theorem getRecycleList_spec (aid : List (String × Item)) (lt : List (String × Nat)) :
    getRecycleList aid lt = (recycleScored aid lt).map (fun x => x.1) ∧
    (recycleScored aid lt).length ≤ 10 ∧
    (∀ p, p ∈ recycleScored aid lt →
      0 < p.2 ∧ p.2 = recycleScore aid (buildReqMap lt) p.1 ∧
        p.1 ∈ recycleCandidates aid) ∧
    (recycleScored aid lt).Pairwise scoreGE ∧
    (∀ q, q ∈ ((recycleCandidates aid).map
        (fun i => (i, recycleScore aid (buildReqMap lt) i))) → 0 < q.2 →
      q ∈ recycleScored aid lt ∨ ∀ p ∈ recycleScored aid lt, scoreGE p q) ∧
    (rarityWeight "Common" = 1 ∧ rarityWeight "Uncommon" = 2 ∧ rarityWeight "Rare" = 4 ∧
      rarityWeight "Epic" = 8 ∧ rarityWeight "Legendary" = 16) ∧
    min 20 10 * rarityWeight "Rare" = 40 := by
  have hsorted : List.Sorted scoreGE
      (List.insertionSort scoreGE
        (((recycleCandidates aid).map
          (fun i => (i, recycleScore aid (buildReqMap lt) i))).filter (fun x => 0 < x.2))) :=
    List.sorted_insertionSort scoreGE _
  have hperm := List.perm_insertionSort scoreGE
    (((recycleCandidates aid).map
      (fun i => (i, recycleScore aid (buildReqMap lt) i))).filter (fun x => 0 < x.2))
  refine ⟨rfl, ?_, ?_, ?_, ?_, ⟨rfl, rfl, rfl, rfl, rfl⟩, rfl⟩
  · unfold recycleScored
    rw [List.length_take]
    exact min_le_left _ _
  · intro p hp
    have hp2 : p ∈ List.insertionSort scoreGE
        (((recycleCandidates aid).map
          (fun i => (i, recycleScore aid (buildReqMap lt) i))).filter (fun x => 0 < x.2)) :=
      List.mem_of_mem_take hp
    have hp3 := hperm.mem_iff.mp hp2
    rw [List.mem_filter] at hp3
    obtain ⟨hmem, hpos⟩ := hp3
    rw [List.mem_map] at hmem
    obtain ⟨i, hi, hip⟩ := hmem
    refine ⟨by simpa using hpos, ?_, ?_⟩
    · rw [← hip]
    · rw [← hip]
      exact hi
  · exact List.Pairwise.sublist (List.take_sublist _ _) hsorted
  · intro q hq hqpos
    have hq2 : q ∈ List.insertionSort scoreGE
        (((recycleCandidates aid).map
          (fun i => (i, recycleScore aid (buildReqMap lt) i))).filter (fun x => 0 < x.2)) := by
      rw [hperm.mem_iff, List.mem_filter]
      exact ⟨hq, by simpa using hqpos⟩
    rw [← List.take_append_drop 10 (List.insertionSort scoreGE _)] at hq2
    rw [List.mem_append] at hq2
    rcases hq2 with h | h
    · exact Or.inl h
    · right
      intro p hp
      have hsplit : List.Pairwise scoreGE
          ((List.insertionSort scoreGE
            (((recycleCandidates aid).map
              (fun i => (i, recycleScore aid (buildReqMap lt) i))).filter
                (fun x => 0 < x.2))).take 10 ++
           (List.insertionSort scoreGE
            (((recycleCandidates aid).map
              (fun i => (i, recycleScore aid (buildReqMap lt) i))).filter
                (fun x => 0 < x.2))).drop 10) := by
        rw [List.take_append_drop]
        exact hsorted
      exact (List.pairwise_append.mp hsplit).2.2 p hp q h


/-- C7 witness: on the concrete catalog the clamped candidate scores 40
and ranks first. -/
theorem getRecycleList_spec_witness :
    (recycleScored recAid [("mat_rare", 10)]).length ≤ 10 ∧
    0 < ((recA, 40) : Item × Nat).2 ∧
    ((recA, 40) : Item × Nat).2 =
      recycleScore recAid (buildReqMap [("mat_rare", 10)]) ((recA, 40) : Item × Nat).1 ∧
    min 20 10 * rarityWeight "Rare" = 40 := by
  have h := getRecycleList_spec recAid [("mat_rare", 10)]
  have he : recycleScored recAid [("mat_rare", 10)] = [(recA, 40), (recB, 16)] := rfl
  have hmem : ((recA, 40) : Item × Nat) ∈ recycleScored recAid [("mat_rare", 10)] := by
    rw [he]
    exact List.mem_cons_self _ _
  exact ⟨h.2.1, (h.2.2.1 _ hmem).1, (h.2.2.1 _ hmem).2.1, h.2.2.2.2.2.2⟩

end Loadout

namespace Loadout


theorem Item.id_withCount (i : Item) (x : Option Nat) : (i.withCount x).id = i.id := by
  cases i; rfl

theorem Item.id_withMods (i : Item) (x : Option (List (Option Item))) :
    (i.withMods x).id = i.id := by
  cases i; rfl

theorem Item.modifications_withMods (i : Item) (x : Option (List (Option Item))) :
    (i.withMods x).modifications = x := by
  cases i; rfl

theorem Item.modifications_withCount (i : Item) (x : Option Nat) :
    (i.withCount x).modifications = i.modifications := by
  cases i; rfl

theorem Item.count_withMods (i : Item) (x : Option (List (Option Item))) :
    (i.withMods x).count = i.count := by
  cases i; rfl

theorem Item.slots_withCount (i : Item) (x : Option Nat) :
    (i.withCount x).slots = i.slots := by
  cases i; rfl

theorem Item.slots_withMods (i : Item) (x : Option (List (Option Item))) :
    (i.withMods x).slots = i.slots := by
  cases i; rfl

theorem countD_eq_natD1 (i : Item) : countD i = natD1 i.count := by
  unfold countD natD1
  rfl

theorem natD1_natD1 (x : Option Nat) : natD1 (some (natD1 x)) = natD1 x := by
  unfold natD1
  cases x with
  | none => rfl
  | some n => cases n <;> rfl

theorem slotsD_optSlots (x : Option Item) (k : String) (d : Nat) :
    slotsD x k d = match optSlots x with
      | none => d
      | some s => (recGet s k).getD d := by
  cases x with
  | none => rfl
  | some a => rfl

theorem calculateExtraSlotsCount_optSlots (x : Option Item) :
    calculateExtraSlotsCount x = match optSlots x with
      | none => 0
      | some _ =>
        EXTRA_SLOT_TYPES.foldl (fun acc key => acc + slotsGet0 (optSlots x) key) 0 := by
  cases x with
  | none => rfl
  | some a =>
    unfold calculateExtraSlotsCount optSlots
    cases a.slots <;> rfl

theorem trimS_decomp (arr : List (Option SerializedItem)) :
    arr = trimS arr ++ (arr.reverse.takeWhile (fun x => x.isNone)).reverse ∧
    ∀ x ∈ (arr.reverse.takeWhile (fun x => x.isNone)).reverse, x = none := by
  constructor
  · unfold trimS
    conv_lhs => rw [← arr.reverse_reverse]
    conv_lhs =>
      rw [← List.takeWhile_append_dropWhile (fun x => x.isNone) arr.reverse]
    rw [List.reverse_append]
  · intro x hx
    rw [List.mem_reverse] at hx
    have := List.mem_takeWhile_imp hx
    simpa [Option.isNone_iff_eq_none] using this

theorem mods_roundtrip (aid : String → Option Item) (ms : List (Option Item)) (pad : Nat)
    (h : ms.all (modWF aid) = true) (j : Nat) :
    (((ms.map (fun m : Option Item =>
        match m with
        | none => (none : Option Item)
        | some mm =>
          match aid mm.id with
          | none => none
          | some mbase => some (mbase.withCount (some 1)))) ++
      List.replicate pad (none : Option Item)).getD j none).map Item.id =
      ((ms.getD j none).map Item.id) := by
  rw [List.getD_eq_getElem?_getD, List.getD_eq_getElem?_getD, List.getElem?_append]
  by_cases hj : j < ms.length
  · rw [if_pos (by simpa using hj), List.getElem?_map]
    cases he : ms[j]? with
    | none =>
      exfalso
      have hlen : ms.length ≤ j := List.getElem?_eq_none_iff.mp he
      omega
    | some m =>
      have hm : modWF aid m = true := (List.all_eq_true.mp h) m (List.getElem?_mem he)
      simp only [Option.map_some, Option.getD_some]
      cases m with
      | none => rfl
      | some mm =>
        unfold modWF at hm
        dsimp only at hm ⊢
        cases ha : aid mm.id with
        | none =>
          rw [ha] at hm
          cases hm
        | some mbase =>
          rw [ha] at hm
          dsimp only at hm
          have hid := eq_of_beq hm
          simp [ha, Item.id_withCount, hid]
  · rw [if_neg (by simpa using hj), List.getElem?_replicate]
    rw [List.getElem?_eq_none (by omega)]
    split <;> rfl

theorem countD_withMods (i : Item) (x : Option (List (Option Item))) :
    countD (i.withMods x) = countD i := by
  cases i; rfl

theorem getD_replicate_none (n j : Nat) :
    (List.replicate n (none : Option Item)).getD j none = none := by
  rw [List.getD_eq_getElem?_getD, List.getElem?_replicate]
  split <;> rfl

theorem countD_restored (i : Item) (base : Item) :
    countD (base.withCount (some (natD1 i.count))) = countD i := by
  rw [countD_withCount, natD1_natD1, countD_eq_natD1]

theorem dMap_sMap_cell (aid : String → Option Item) (c : Option Item)
    (h : cellWF aid c = true) :
    itemEquiv (dMapItem aid (sMapItem c)) c := by
  cases c with
  | none => exact trivial
  | some i =>
    unfold cellWF at h
    dsimp only at h
    cases hb : aid i.id with
    | none =>
      rw [hb] at h
      cases h
    | some base =>
      rw [hb] at h
      dsimp only at h
      rw [Bool.and_eq_true] at h
      obtain ⟨hbid, hmods⟩ := h
      have hid : base.id = i.id := eq_of_beq hbid
      unfold sMapItem dMapItem
      dsimp only
      rw [hb]
      dsimp only
      cases hmi : i.modifications with
      | none =>
        cases hbsm : base.supportedModifications with
        | none =>
          rw [hmi, hbsm] at hmods
          dsimp only at hmods ⊢
          have hbm : base.modifications = none := Option.isNone_iff_eq_none.mp hmods
          refine ⟨by rw [Item.id_withCount, hid], countD_restored i base, ?_⟩
          intro j
          unfold modIdAt
          rw [Item.modifications_withCount, hbm, hmi]
        | some bsm =>
          dsimp only
          refine ⟨by rw [Item.id_withMods, Item.id_withCount, hid], ?_, ?_⟩
          · rw [countD_withMods, countD_restored]
          · intro j
            unfold modIdAt
            rw [Item.modifications_withMods, hmi]
            dsimp only [Option.getD_some]
            rw [getD_replicate_none]
            rfl
      | some ms =>
        cases hbsm : base.supportedModifications with
        | none =>
          rw [hmi, hbsm] at hmods
          dsimp only at hmods
          cases hmods
        | some bsm =>
          rw [hmi, hbsm] at hmods
          dsimp only at hmods
          rw [Bool.and_eq_true] at hmods
          obtain ⟨hlen, hall⟩ := hmods
          refine ⟨by rw [Item.id_withMods, Item.id_withCount, hid], ?_, ?_⟩
          · rw [countD_withMods, countD_restored]
          · intro j
            unfold modIdAt
            rw [Item.modifications_withMods, hmi]
            dsimp only [Option.getD_some]
            rw [List.map_map]
            rw [List.map_congr_left (g := fun m : Option Item =>
              match m with
              | none => (none : Option Item)
              | some mm =>
                match aid mm.id with
                | none => none
                | some mbase => some (mbase.withCount (some 1)))
              (fun m _ => by cases m <;> rfl)]
            rw [List.length_map]
            exact mods_roundtrip aid ms (bsm.length - ms.length) hall j

theorem trimS_le (arr : List (Option SerializedItem)) : (trimS arr).length ≤ arr.length := by
  obtain ⟨hdec, -⟩ := trimS_decomp arr
  conv_rhs => rw [hdec]
  rw [List.length_append]
  omega

theorem trimS_take (arr : List (Option SerializedItem)) :
    trimS arr = arr.take (trimS arr).length := by
  obtain ⟨hdec, -⟩ := trimS_decomp arr
  conv_lhs => rw [← List.take_left (trimS arr) (arr.reverse.takeWhile (fun x => x.isNone)).reverse]
  rw [← hdec]

theorem trimS_suffix (arr : List (Option SerializedItem)) (j : Nat)
    (h : (trimS arr).length ≤ j) : arr.getD j none = none := by
  obtain ⟨hdec, hnone⟩ := trimS_decomp arr
  rw [List.getD_eq_getElem?_getD]
  conv_lhs => rw [hdec]
  rw [List.getElem?_append_right h]
  cases he : (arr.reverse.takeWhile (fun x => x.isNone)).reverse[j - (trimS arr).length]? with
  | none => rfl
  | some x =>
    have := hnone x (List.getElem?_mem he)
    rw [this]
    rfl

theorem sMapItem_eq_none (c : Option Item) (h : sMapItem c = none) : c = none := by
  cases c with
  | none => rfl
  | some i => cases h

theorem array_roundtrip (aid : String → Option Item) (arr : List (Option Item)) (size : Nat)
    (hlen : arr.length = size) (hWF : arr.all (cellWF aid) = true) :
    (padI ((trimS (arr.map sMapItem)).map (dMapItem aid)) size).length = size ∧
    ∀ j, itemEquiv ((padI ((trimS (arr.map sMapItem)).map (dMapItem aid)) size).getD j none)
      (arr.getD j none) := by
  have hTle : (trimS (arr.map sMapItem)).length ≤ size := by
    have := trimS_le (arr.map sMapItem)
    rw [List.length_map] at this
    omega
  constructor
  · unfold padI
    rw [List.length_append, List.length_replicate, List.length_map]
    omega
  · intro j
    by_cases hj1 : j < (trimS (arr.map sMapItem)).length
    · have h1 : (padI ((trimS (arr.map sMapItem)).map (dMapItem aid)) size).getD j none =
          ((trimS (arr.map sMapItem)).map (dMapItem aid)).getD j none := by
        unfold padI
        rw [List.getD_eq_getElem?_getD, List.getD_eq_getElem?_getD, List.getElem?_append,
          if_pos (by rw [List.length_map]; exact hj1)]
      rw [h1, List.getD_eq_getElem?_getD, List.getElem?_map]
      conv_lhs => rw [trimS_take (arr.map sMapItem)]
      rw [List.getElem?_take, if_pos hj1, List.getElem?_map]
      cases he : arr[j]? with
      | none =>
        exfalso
        have := List.getElem?_eq_none_iff.mp he
        omega
      | some c =>
        rw [List.getD_eq_getElem?_getD, he]
        show itemEquiv (dMapItem aid (sMapItem c)) c
        exact dMap_sMap_cell aid c ((List.all_eq_true.mp hWF) c (List.getElem?_mem he))
    · have hLnone : (padI ((trimS (arr.map sMapItem)).map (dMapItem aid)) size).getD j none
          = none := by
        unfold padI
        rw [List.getD_eq_getElem?_getD,
          List.getElem?_append_right (by rw [List.length_map]; omega)]
        rw [List.getElem?_replicate]
        split <;> rfl
      rw [hLnone]
      by_cases hj2 : j < size
      · have hsm : (arr.map sMapItem).getD j none = none :=
          trimS_suffix (arr.map sMapItem) j (by omega)
        rw [List.getD_eq_getElem?_getD, List.getElem?_map] at hsm
        cases he : arr[j]? with
        | none =>
          exfalso
          have := List.getElem?_eq_none_iff.mp he
          omega
        | some c =>
          rw [he] at hsm
          have hc : c = none := sMapItem_eq_none c hsm
          rw [List.getD_eq_getElem?_getD, he]
          show itemEquiv none c
          rw [hc]
          exact trivial
      · rw [List.getD_eq_getElem?_getD, List.getElem?_eq_none (by omega)]
        exact trivial

/-- C9: serialize then deserialize reproduces an equivalent loadout for
every well-formed loadout (WFb: every stored stack resolves in the
catalog with matching id and slots map, mounted modification lists fit
the declared supported-modification slots, and the array lengths match
the capacities derived from the equipped augment, as legal equips
maintain): the restored loadout agrees with the original on every slot
(same item ids, same effective counts, same mounted modification ids),
and the pooled-container sizes of the restored loadout are re-derived
from the RESTORED augment capacity map (backpack/quick-use/safe-pocket
via slots with defaults 16/3/0, extra via calculateExtraSlotsCount),
with trailing empties trimmed by serialization and re-padded by
deserialization. -/
theorem roundTrip_loadout (aid : String → Option Item) (l : LoadoutState)
    (h : WFb aid l = true) :
    loadoutEquiv (deserializeLoadout aid (serializeLoadout l)) l ∧
    (deserializeLoadout aid (serializeLoadout l)).weapons.length = 2 ∧
    (deserializeLoadout aid (serializeLoadout l)).backpack.length =
      slotsD (deserializeLoadout aid (serializeLoadout l)).augment "backpack" 16 ∧
    (deserializeLoadout aid (serializeLoadout l)).quickUse.length =
      slotsD (deserializeLoadout aid (serializeLoadout l)).augment "quick_use" 3 ∧
    (deserializeLoadout aid (serializeLoadout l)).safePocket.length =
      slotsD (deserializeLoadout aid (serializeLoadout l)).augment "safe_pocket" 0 ∧
    (deserializeLoadout aid (serializeLoadout l)).extra.length =
      calculateExtraSlotsCount (deserializeLoadout aid (serializeLoadout l)).augment := by
  have h2 := h
  unfold WFb at h2
  simp only [Bool.and_eq_true] at h2
  obtain ⟨⟨⟨⟨⟨⟨⟨⟨⟨⟨⟨⟨hcA, hcS⟩, hwA⟩, hbA⟩, hqA⟩, heA⟩, hsA⟩, hw2⟩, hbL⟩, hqL⟩, hsL⟩,
    heL⟩, hwfS⟩ := h2
  have hw2n : l.weapons.length = 2 := eq_of_beq hw2
  have hbLn : l.backpack.length = slotsD l.augment "backpack" 16 := eq_of_beq hbL
  have hqLn : l.quickUse.length = slotsD l.augment "quick_use" 3 := eq_of_beq hqL
  have hsLn : l.safePocket.length = slotsD l.augment "safe_pocket" 0 := eq_of_beq hsL
  have heLn : l.extra.length = calculateExtraSlotsCount l.augment := eq_of_beq heL
  have haug : optSlots (dMapItem aid (sMapItem l.augment)) = optSlots l.augment := by
    cases hA : l.augment with
    | none => rfl
    | some a =>
      rw [hA] at hwfS
      unfold augSlotsWF at hwfS
      dsimp only at hwfS
      cases hb : aid a.id with
      | none =>
        rw [hb] at hwfS
        cases hwfS
      | some base =>
        rw [hb] at hwfS
        have hslots : base.slots = a.slots := eq_of_beq hwfS
        unfold sMapItem dMapItem
        dsimp only
        rw [hb]
        dsimp only
        cases a.modifications <;> cases base.supportedModifications <;>
          dsimp only [optSlots] <;>
          simp [Item.slots_withCount, Item.slots_withMods, hslots]
  have hcap : ∀ k d, slotsD (dMapItem aid (sMapItem l.augment)) k d = slotsD l.augment k d := by
    intro k d
    rw [slotsD_optSlots, slotsD_optSlots, haug]
  have hext : calculateExtraSlotsCount (dMapItem aid (sMapItem l.augment)) =
      calculateExtraSlotsCount l.augment := by
    rw [calculateExtraSlotsCount_optSlots (dMapItem aid (sMapItem l.augment)),
      calculateExtraSlotsCount_optSlots l.augment, haug]
  have hW := array_roundtrip aid l.weapons 2 hw2n hwA
  have hB := array_roundtrip aid l.backpack (slotsD (dMapItem aid (sMapItem l.augment)) "backpack" 16)
    (by rw [hcap]; exact hbLn) hbA
  have hQ := array_roundtrip aid l.quickUse (slotsD (dMapItem aid (sMapItem l.augment)) "quick_use" 3)
    (by rw [hcap]; exact hqLn) hqA
  have hS := array_roundtrip aid l.safePocket (slotsD (dMapItem aid (sMapItem l.augment)) "safe_pocket" 0)
    (by rw [hcap]; exact hsLn) hsA
  have hE := array_roundtrip aid l.extra (calculateExtraSlotsCount (dMapItem aid (sMapItem l.augment)))
    (by rw [hext]; exact heLn) heA
  unfold deserializeLoadout serializeLoadout
  dsimp only
  refine ⟨⟨dMap_sMap_cell aid l.augment hcA, dMap_sMap_cell aid l.shield hcS,
    hW.2, hB.2, hQ.2, hE.2, hS.2⟩, hW.1, hB.1, hQ.1, hS.1, hE.1⟩

/-- C9 witness: the concrete well-formed loadout wfL round-trips
through serialization on catalog0. -/
theorem roundTrip_loadout_witness :
    WFb catalog0 wfL = true ∧
    loadoutEquiv (deserializeLoadout catalog0 (serializeLoadout wfL)) wfL :=
  ⟨by decide, (roundTrip_loadout catalog0 wfL (by decide)).1⟩

end Loadout
